import Mathlib

/-!
Verification of the ESP32_AI_Connect tool-calling layer.

The development shallowly embeds the parts of the library that the claims
are about:

* a structured-document (JSON) value type with a serializer and a parser,
  modelling the ArduinoJson documents the adapters manipulate (numbers are
  modelled as integers, strings escape only quote and backslash, and the
  parser handles the whitespace-free fragment the serializer produces —
  the document primitives are external collaborators of the library);
* the tool-definition registry (`setTCTools`);
* the conversation orchestrator (`tcChat` / `tcReply`) with the transport
  outcome supplied as an explicit parameter and the active platform handler
  as a record of functions (the source dispatches virtually through a base
  pointer);
* the Claude, Gemini and DeepSeek adapter request builders and response
  parsers the claims cite, translated at the document level, with the
  serialized body obtained by serializing the built document.
-/

/-- A structured-document value: the in-memory form of an ArduinoJson
document.  Objects keep their member list in insertion order, as the
library's documents do. -/
inductive Json where
  | null
  | bool (b : Bool)
  | num (n : Int)
  | str (s : String)
  | arr (items : List Json)
  | obj (fields : List (String × Json))
deriving Inhabited

namespace Json

/-- The members of a document if it is an object; the empty list otherwise
(an ArduinoJson `as<JsonObject>()` of a non-object is a null object over
which iteration does nothing). -/
def fields : Json → List (String × Json)
  | .obj fs => fs
  | _ => []

/-- The items of a document if it is an array; the empty list otherwise
(a null `JsonArray` iterates over nothing). -/
def items : Json → List Json
  | .arr xs => xs
  | _ => []

/-- First member with the given key, as ArduinoJson member lookup finds it. -/
def lookupField : List (String × Json) → String → Option Json
  | [], _ => none
  | (k, v) :: fs, key => if k = key then some v else lookupField fs key

/-- `doc[key]` as an `Option`. -/
def getKey (j : Json) (key : String) : Option Json := lookupField j.fields key

/-- `doc[key]` read: a missing key (or a non-object receiver) reads as the
null variant. -/
def getD (j : Json) (key : String) : Json := (j.getKey key).getD .null

/-- `containsKey`. -/
def hasKey (j : Json) (key : String) : Bool := (j.getKey key).isSome

def isArr : Json → Bool
  | .arr _ => true
  | _ => false

def isObj : Json → Bool
  | .obj _ => true
  | _ => false

def isStr : Json → Bool
  | .str _ => true
  | _ => false

/-- Rewrites the first member carrying the key, or appends a new member:
the behaviour of an ArduinoJson `doc[key] = value` write. -/
def writeField : List (String × Json) → String → Json → List (String × Json)
  | [], key, v => [(key, v)]
  | (k, w) :: fs, key, v =>
      if k = key then (k, v) :: fs else (k, w) :: writeField fs key v

/-- Member-by-member copy of an object into a fresh object
(`for (JsonPair kv : src) dst[kv.key()] = kv.value();`).  A non-object
source copies as the empty object. -/
def copyObj (j : Json) : Json := .obj (j.fields.foldl (fun acc kv => writeField acc kv.1 kv.2) [])

/-- ArduinoJson `as<int>`. -/
def asInt : Json → Int
  | .num n => n
  | .bool true => 1
  | _ => 0

/-- ArduinoJson `as<bool>`. -/
def asBool : Json → Bool
  | .bool b => b
  | .num n => n ≠ 0
  | _ => false

end Json

/-! ### Serialization (`serializeJson`) -/

/-- Digit-producing loop, structural on `fuel` so that it evaluates inside
the kernel; the wrapper below always passes enough fuel. -/
def natDigsGo : Nat → Nat → List Char → List Char
  | 0, _, acc => acc
  | fuel + 1, n, acc =>
      if n < 10 then Char.ofNat (48 + n) :: acc
      else natDigsGo fuel (n / 10) (Char.ofNat (48 + n % 10) :: acc)

/-- Decimal digits of `n`, most significant first, in front of `acc`. -/
def natDigs (n : Nat) (acc : List Char) : List Char := natDigsGo (n + 1) n acc

theorem natDigsGo_congr : ∀ (f1 f2 n : Nat) (acc : List Char), n < f1 → n < f2 →
    natDigsGo f1 n acc = natDigsGo f2 n acc := by
  intro f1
  induction f1 with
  | zero => intro f2 n acc h1 _; omega
  | succ f1 ih =>
      intro f2 n acc h1 h2
      cases f2 with
      | zero => omega
      | succ f2 =>
          simp only [natDigsGo]
          by_cases h : n < 10
          · simp [h]
          · simp only [if_neg h]
            exact ih f2 (n / 10) _ (by omega) (by omega)

/-- The recursion equation the digit loop satisfies. -/
theorem natDigs_eq (n : Nat) (acc : List Char) :
    natDigs n acc = if n < 10 then Char.ofNat (48 + n) :: acc
      else natDigs (n / 10) (Char.ofNat (48 + n % 10) :: acc) := by
  unfold natDigs
  by_cases h : n < 10
  · simp [natDigsGo, h]
  · simp only [natDigsGo, if_neg h]
    exact natDigsGo_congr n (n / 10 + 1) (n / 10) _ (by omega) (by omega)

/-- Characters of an integer: a sign when negative, then decimal digits. -/
def intChars (i : Int) : List Char :=
  if i < 0 then '-' :: natDigs i.natAbs [] else natDigs i.natAbs []

/-- One string character, escaped when it is a quote or a backslash. -/
def escChar (c : Char) : List Char :=
  if c = '"' then ['\\', '"'] else if c = '\\' then ['\\', '\\'] else [c]

/-- A serialized string literal: quoted, with quote/backslash escaped. -/
def strChars (s : String) : List Char := '"' :: (s.toList.flatMap escChar ++ ['"'])

mutual
/-- Serialized characters of a value. -/
def Json.serL : Json → List Char
  | .null => "null".toList
  | .bool true => "true".toList
  | .bool false => "false".toList
  | .num n => intChars n
  | .str s => strChars s
  | .arr xs => '[' :: (Json.serItems xs ++ [']'])
  | .obj fs => '{' :: (Json.serFields fs ++ ['}'])
/-- Serialized characters of array items, comma separated. -/
def Json.serItems : List Json → List Char
  | [] => []
  | x :: xs => x.serL ++ Json.serMoreItems xs
def Json.serMoreItems : List Json → List Char
  | [] => []
  | x :: xs => ',' :: (x.serL ++ Json.serMoreItems xs)
/-- Serialized characters of object members, comma separated. -/
def Json.serFields : List (String × Json) → List Char
  | [] => []
  | (k, v) :: fs => strChars k ++ ':' :: (v.serL ++ Json.serMoreFields fs)
def Json.serMoreFields : List (String × Json) → List Char
  | [] => []
  | (k, v) :: fs => ',' :: (strChars k ++ ':' :: (v.serL ++ Json.serMoreFields fs))
end

/-- `serializeJson`: the document rendered to its wire text. -/
def jsonSerialize (j : Json) : String := ⟨j.serL⟩

/-- ArduinoJson `as<String>`: strings unchanged, scalars in their printed
form, containers serialized. -/
def Json.asString : Json → String
  | .str s => s
  | .num n => ⟨intChars n⟩
  | .bool true => "true"
  | .bool false => "false"
  | .null => "null"
  | v => jsonSerialize v

/-! ### Parsing (`deserializeJson`, on the whitespace-free fragment) -/

def isDig (c : Char) : Bool := 48 ≤ c.toNat && c.toNat ≤ 57

/-- Longest digit prefix and the remaining input. -/
def takeDigs : List Char → List Char × List Char
  | [] => ([], [])
  | c :: cs =>
      if isDig c then
        let (ds, r) := takeDigs cs
        (c :: ds, r)
      else ([], c :: cs)

/-- Value of a digit run. -/
def digsVal (ds : List Char) : Nat := ds.foldl (fun a c => a * 10 + (c.toNat - 48)) 0

/-- A number token: at least one digit. -/
def pNat : List Char → Option (Nat × List Char) := fun cs =>
  let (ds, r) := takeDigs cs
  if ds.isEmpty then none else some (digsVal ds, r)

/-- Body of a string literal, after the opening quote.  A backslash makes
the following character literal, inverting `escChar`. -/
def pStrBody (acc : List Char) : List Char → Option (String × List Char)
  | [] => none
  | '"' :: r => some (⟨acc.reverse⟩, r)
  | '\\' :: c :: r => pStrBody (c :: acc) r
  | c :: r => pStrBody (c :: acc) r

mutual
/-- Parse one value.  `fuel` only forces termination; the top-level entry
point passes more fuel than any input can consume. -/
def pVal : Nat → List Char → Option (Json × List Char)
  | 0, _ => none
  | fuel + 1, cs =>
    match cs with
    | 'n' :: 'u' :: 'l' :: 'l' :: r => some (.null, r)
    | 't' :: 'r' :: 'u' :: 'e' :: r => some (.bool true, r)
    | 'f' :: 'a' :: 'l' :: 's' :: 'e' :: r => some (.bool false, r)
    | '"' :: r =>
        match pStrBody [] r with
        | some (s, r2) => some (.str s, r2)
        | none => none
    | '[' :: r =>
        (match r with
         | [] => none
         | c :: r2 =>
             if c = ']' then some (.arr [], r2)
             else match pItems fuel (c :: r2) with
                  | some (xs, r3) => some (.arr xs, r3)
                  | none => none)
    | '{' :: r =>
        (match r with
         | [] => none
         | c :: r2 =>
             if c = '}' then some (.obj [], r2)
             else match pFields fuel (c :: r2) with
                  | some (fs, r3) => some (.obj fs, r3)
                  | none => none)
    | '-' :: r =>
        (match pNat r with
         | some (m, r2) => some (.num (-(m : Int)), r2)
         | none => none)
    | c :: r =>
        if isDig c then
          match pNat (c :: r) with
          | some (m, r2) => some (.num (m : Int), r2)
          | none => none
        else none
    | [] => none
/-- One or more comma-separated items, up to the closing bracket. -/
def pItems : Nat → List Char → Option (List Json × List Char)
  | 0, _ => none
  | fuel + 1, cs =>
    match pVal fuel cs with
    | none => none
    | some (v, r) =>
      match r with
      | ',' :: r2 =>
          (match pItems fuel r2 with
           | some (vs, r3) => some (v :: vs, r3)
           | none => none)
      | ']' :: r2 => some ([v], r2)
      | _ => none
/-- One or more comma-separated members, up to the closing brace. -/
def pFields : Nat → List Char → Option (List (String × Json) × List Char)
  | 0, _ => none
  | fuel + 1, cs =>
    match cs with
    | '"' :: r =>
        (match pStrBody [] r with
         | none => none
         | some (k, r1) =>
           match r1 with
           | ':' :: r2 =>
               (match pVal fuel r2 with
                | none => none
                | some (v, r3) =>
                  match r3 with
                  | ',' :: r4 =>
                      (match pFields fuel r4 with
                       | some (fs, r5) => some ((k, v) :: fs, r5)
                       | none => none)
                  | '}' :: r4 => some ([(k, v)], r4)
                  | _ => none)
           | _ => none)
    | _ => none
end

/-- `deserializeJson`: parse a complete document (the whole input must be
consumed). -/
def jsonParse (s : String) : Option Json :=
  match pVal (s.toList.length + 1) s.toList with
  | some (v, []) => some v
  | _ => none

/-! ### The parser inverts the serializer -/

theorem digChar_val (k : Nat) (h : k < 10) :
    (Char.ofNat (48 + k)).toNat = 48 + k ∧ isDig (Char.ofNat (48 + k)) = true := by
  interval_cases k <;> exact (by decide)

theorem natDigs_shift (n : Nat) : ∀ acc, natDigs n acc = natDigs n [] ++ acc := by
  induction n using Nat.strongRecOn with
  | _ n ih =>
    intro acc
    rw [natDigs_eq n acc, natDigs_eq n []]
    by_cases h : n < 10
    · simp [h]
    · simp only [if_neg h]
      rw [ih (n / 10) (Nat.div_lt_self (by omega) (by omega)),
          ih (n / 10) (Nat.div_lt_self (by omega) (by omega)) [_]]
      simp

theorem natDigs_snoc (n : Nat) :
    natDigs n [] = (if n < 10 then [] else natDigs (n / 10) [])
      ++ [Char.ofNat (48 + n % 10)] := by
  rw [natDigs_eq]
  by_cases h : n < 10
  · simp [h, Nat.mod_eq_of_lt h]
  · simp only [if_neg h]
    exact natDigs_shift (n / 10) [_]

theorem natDigs_ne_nil (n : Nat) : natDigs n [] ≠ [] := by
  rw [natDigs_snoc]; simp

theorem natDigs_isDig (n : Nat) : ∀ c ∈ natDigs n [], isDig c = true := by
  induction n using Nat.strongRecOn with
  | _ n ih =>
    rw [natDigs_snoc]
    intro c hc
    rw [List.mem_append] at hc
    cases hc with
    | inr h =>
        rw [List.mem_singleton] at h; subst h
        exact (digChar_val _ (Nat.mod_lt _ (by omega))).2
    | inl h =>
        by_cases h10 : n < 10
        · simp [h10] at h
        · exact ih (n / 10) (Nat.div_lt_self (by omega) (by omega)) c (by simpa [h10] using h)

theorem digsVal_natDigs (n : Nat) : digsVal (natDigs n []) = n := by
  induction n using Nat.strongRecOn with
  | _ n ih =>
    rw [natDigs_snoc]
    unfold digsVal
    rw [List.foldl_append]
    by_cases h : n < 10
    · simp only [if_pos h, List.foldl_nil, List.foldl_cons]
      rw [(digChar_val _ (Nat.mod_lt _ (by omega))).1]
      omega
    · simp only [if_neg h, List.foldl_cons, List.foldl_nil]
      have := ih (n / 10) (Nat.div_lt_self (by omega) (by omega))
      unfold digsVal at this
      rw [this, (digChar_val _ (Nat.mod_lt _ (by omega))).1]
      omega

/-- A remainder the number token cannot absorb: empty or headed by a
non-digit. -/
def stopper : List Char → Bool
  | [] => true
  | c :: _ => !isDig c

theorem takeDigs_stop {cs : List Char} (h : stopper cs = true) :
    takeDigs cs = ([], cs) := by
  match cs with
  | [] => rfl
  | c :: t =>
      simp only [stopper, Bool.not_eq_true'] at h
      simp [takeDigs, h]

theorem takeDigs_run (ds : List Char) (hds : ∀ c ∈ ds, isDig c = true)
    (rest : List Char) (hrest : stopper rest = true) :
    takeDigs (ds ++ rest) = (ds, rest) := by
  induction ds with
  | nil => simpa using takeDigs_stop hrest
  | cons c t ih =>
      have hc : isDig c = true := hds c (by simp)
      have ht := ih (fun x hx => hds x (by simp [hx]))
      simp [takeDigs, hc, ht]

theorem pNat_natDigs (n : Nat) (rest : List Char) (hr : stopper rest = true) :
    pNat (natDigs n [] ++ rest) = some (n, rest) := by
  unfold pNat
  rw [takeDigs_run _ (natDigs_isDig n) _ hr]
  simp [natDigs_ne_nil, digsVal_natDigs]

theorem pStrBody_esc (c : Char) (acc rest : List Char) :
    pStrBody acc (escChar c ++ rest) = pStrBody (c :: acc) rest := by
  by_cases h1 : c = '"'
  · subst h1; rfl
  · by_cases h2 : c = '\\'
    · subst h2; rfl
    · have he : escChar c ++ rest = c :: rest := by simp [escChar, h1, h2]
      rw [he, pStrBody.eq_def]
      simp [h1, h2]

theorem pStrBody_flat (cs : List Char) : ∀ (acc rest : List Char),
    pStrBody acc (cs.flatMap escChar ++ '"' :: rest)
      = some (⟨acc.reverse ++ cs⟩, rest) := by
  induction cs with
  | nil => intro acc rest; simp [pStrBody]
  | cons c cs ih =>
      intro acc rest
      rw [List.flatMap_cons, List.append_assoc, pStrBody_esc, ih]
      simp

theorem pStr_ser (s : String) (rest : List Char) :
    pStrBody [] (s.toList.flatMap escChar ++ '"' :: rest) = some (s, rest) := by
  rw [pStrBody_flat]
  simp

theorem isDig_ne (c : Char) (d : Char) (hd : isDig d = false) (h : isDig c = true) :
    c ≠ d := fun e => by subst e; rw [h] at hd; cases hd

/-- Every serialized value starts with a character that closes neither an
array nor an object. -/
theorem serL_head (v : Json) :
    ∃ c t, v.serL = c :: t ∧ c ≠ ']' ∧ c ≠ '}' := by
  cases v with
  | null => exact ⟨'n', _, rfl, by decide, by decide⟩
  | bool b => cases b with
      | true => exact ⟨'t', _, rfl, by decide, by decide⟩
      | false => exact ⟨'f', _, rfl, by decide, by decide⟩
  | str s => exact ⟨'"', _, rfl, by decide, by decide⟩
  | arr xs => exact ⟨'[', _, rfl, by decide, by decide⟩
  | obj fs => exact ⟨'{', _, rfl, by decide, by decide⟩
  | num n =>
      by_cases hn : n < 0
      · refine ⟨'-', natDigs n.natAbs [], ?_, by decide, by decide⟩
        simp [Json.serL, intChars, hn]
      · rcases List.exists_cons_of_ne_nil (natDigs_ne_nil n.natAbs) with ⟨c, t, hct⟩
        have hc : isDig c = true := natDigs_isDig n.natAbs c (hct ▸ List.mem_cons_self ..)
        refine ⟨c, t, ?_, isDig_ne c ']' (by decide) hc, isDig_ne c '}' (by decide) hc⟩
        simp [Json.serL, intChars, hn, hct]

theorem serL_length_pos (v : Json) : 0 < v.serL.length := by
  rcases serL_head v with ⟨c, t, h, -, -⟩
  simp [h]

theorem serMoreItems_eq (x : Json) (xs : List Json) :
    Json.serMoreItems (x :: xs) = ',' :: Json.serItems (x :: xs) := rfl

theorem serMoreFields_eq (f : String × Json) (fs : List (String × Json)) :
    Json.serMoreFields (f :: fs) = ',' :: Json.serFields (f :: fs) := by
  rcases f with ⟨k, v⟩; rfl

theorem pVal_default (fuel : Nat) (c : Char) (t : List Char)
    (h1 : c ≠ 'n') (h2 : c ≠ 't') (h3 : c ≠ 'f') (h4 : c ≠ '"') (h5 : c ≠ '[')
    (h6 : c ≠ '{') (h7 : c ≠ '-') (hc : isDig c = true) :
    pVal (fuel + 1) (c :: t)
      = (match pNat (c :: t) with
         | some (m, r2) => some (.num (m : Int), r2)
         | none => none) := by
  simp only [pVal]
  simp [h1, h2, h3, h4, h5, h6, h7, hc]

theorem pVal_num (n : Int) (fuel : Nat) (rest : List Char) (hr : stopper rest = true) :
    pVal (fuel + 1) (Json.serL (.num n) ++ rest) = some (.num n, rest) := by
  by_cases hn : n < 0
  · have harg : Json.serL (.num n) ++ rest = '-' :: (natDigs n.natAbs [] ++ rest) := by
      simp [Json.serL, intChars, hn]
    rw [harg]
    simp only [pVal]
    rw [pNat_natDigs _ _ hr]
    have hval : -((n.natAbs : Nat) : Int) = n := by omega
    simp only [hval]
  · rcases List.exists_cons_of_ne_nil (natDigs_ne_nil n.natAbs) with ⟨c, t, hct⟩
    have hc : isDig c = true := natDigs_isDig n.natAbs c (hct ▸ List.mem_cons_self ..)
    have harg : Json.serL (.num n) ++ rest = c :: (t ++ rest) := by
      simp [Json.serL, intChars, hn, hct]
    have hback : c :: (t ++ rest) = natDigs n.natAbs [] ++ rest := by
      simp [hct]
    rw [harg, pVal_default fuel c (t ++ rest)
          (isDig_ne c 'n' (by decide) hc) (isDig_ne c 't' (by decide) hc)
          (isDig_ne c 'f' (by decide) hc) (isDig_ne c '"' (by decide) hc)
          (isDig_ne c '[' (by decide) hc) (isDig_ne c '{' (by decide) hc)
          (isDig_ne c '-' (by decide) hc) hc,
        hback, pNat_natDigs _ _ hr]
    have hval : ((n.natAbs : Nat) : Int) = n := by omega
    simp only [hval]

theorem pVal_str (s : String) (fuel : Nat) (rest : List Char) :
    pVal (fuel + 1) (Json.serL (.str s) ++ rest) = some (.str s, rest) := by
  have harg : Json.serL (.str s) ++ rest
      = '"' :: (s.toList.flatMap escChar ++ '"' :: rest) := by
    simp [Json.serL, strChars]
  rw [harg]
  simp only [pVal]
  rw [pStr_ser]

theorem pVal_arrBranch (f : Nat) (x : Json) (xs : List Json) (rest : List Char) :
    pVal (f + 1) ('[' :: (Json.serItems (x :: xs) ++ ']' :: rest))
      = (match pItems f (Json.serItems (x :: xs) ++ ']' :: rest) with
         | some (vs, r3) => some (.arr vs, r3)
         | none => none) := by
  rcases serL_head x with ⟨c, t, hct, hbr, -⟩
  have hcons : Json.serItems (x :: xs) ++ ']' :: rest
      = c :: (t ++ (Json.serMoreItems xs ++ ']' :: rest)) := by
    simp [Json.serItems, hct]
  rw [hcons]
  simp only [pVal]
  simp only [if_neg hbr]

theorem pVal_objBranch (f : Nat) (kv : String × Json) (fs : List (String × Json))
    (rest : List Char) :
    pVal (f + 1) ('{' :: (Json.serFields (kv :: fs) ++ '}' :: rest))
      = (match pFields f (Json.serFields (kv :: fs) ++ '}' :: rest) with
         | some (gs, r3) => some (.obj gs, r3)
         | none => none) := by
  rcases kv with ⟨k, v⟩
  have hcons : Json.serFields ((k, v) :: fs) ++ '}' :: rest
      = '"' :: (k.toList.flatMap escChar
          ++ ('"' :: (':' :: (v.serL ++ (Json.serMoreFields fs ++ '}' :: rest))))) := by
    simp [Json.serFields, strChars]
  rw [hcons]
  simp only [pVal]
  simp only [if_neg (by decide : ¬('"' = '}'))]

mutual
theorem rtVal : ∀ (v : Json) (fuel : Nat) (rest : List Char),
    v.serL.length < fuel → stopper rest = true →
    pVal fuel (v.serL ++ rest) = some (v, rest)
  | .null, fuel, rest, hf, _ => by
      cases fuel with
      | zero => exact absurd hf (Nat.not_lt_zero _)
      | succ f => simp [Json.serL, pVal]
  | .bool b, fuel, rest, hf, _ => by
      cases fuel with
      | zero => exact absurd hf (Nat.not_lt_zero _)
      | succ f => cases b <;> simp [Json.serL, pVal]
  | .num n, fuel, rest, hf, hr => by
      cases fuel with
      | zero => exact absurd hf (Nat.not_lt_zero _)
      | succ f => exact pVal_num n f rest hr
  | .str s, fuel, rest, hf, _ => by
      cases fuel with
      | zero => exact absurd hf (Nat.not_lt_zero _)
      | succ f => exact pVal_str s f rest
  | .arr [], fuel, rest, hf, _ => by
      cases fuel with
      | zero => exact absurd hf (Nat.not_lt_zero _)
      | succ f => simp [Json.serL, Json.serItems, pVal]
  | .arr (x :: xs), fuel, rest, hf, _ => by
      cases fuel with
      | zero => exact absurd hf (Nat.not_lt_zero _)
      | succ f =>
          have hfi : (Json.serItems (x :: xs)).length + 1 < f := by
            simp only [Json.serL, List.length_cons, List.length_append,
              List.length_nil] at hf
            omega
          have key := rtItems x xs f rest hfi
          have harg : Json.serL (.arr (x :: xs)) ++ rest
              = '[' :: (Json.serItems (x :: xs) ++ ']' :: rest) := by
            simp [Json.serL]
          rw [harg, pVal_arrBranch f x xs rest, key]
  | .obj [], fuel, rest, hf, _ => by
      cases fuel with
      | zero => exact absurd hf (Nat.not_lt_zero _)
      | succ f => simp [Json.serL, Json.serFields, pVal]
  | .obj (kv :: fs), fuel, rest, hf, _ => by
      cases fuel with
      | zero => exact absurd hf (Nat.not_lt_zero _)
      | succ f =>
          have hfi : (Json.serFields (kv :: fs)).length + 1 < f := by
            simp only [Json.serL, List.length_cons, List.length_append,
              List.length_nil] at hf
            omega
          have key := rtFields kv fs f rest hfi
          have harg : Json.serL (.obj (kv :: fs)) ++ rest
              = '{' :: (Json.serFields (kv :: fs) ++ '}' :: rest) := by
            simp [Json.serL]
          rw [harg, pVal_objBranch f kv fs rest, key]
termination_by v _ _ _ _ => sizeOf v

theorem rtItems : ∀ (x : Json) (xs : List Json) (fuel : Nat) (rest : List Char),
    (Json.serItems (x :: xs)).length + 1 < fuel →
    pItems fuel (Json.serItems (x :: xs) ++ ']' :: rest) = some (x :: xs, rest)
  | x, [], fuel, rest, hf => by
      cases fuel with
      | zero => omega
      | succ f =>
          have hfx : x.serL.length < f := by
            simp only [Json.serItems, Json.serMoreItems, List.append_nil,
              List.length_append, List.length_nil] at hf
            omega
          have hv := rtVal x f (']' :: rest) hfx rfl
          have harg : Json.serItems [x] ++ ']' :: rest = x.serL ++ ']' :: rest := by
            simp [Json.serItems, Json.serMoreItems]
          rw [harg]
          simp only [pItems]
          rw [hv]
          rfl
  | x, y :: ys, fuel, rest, hf => by
      cases fuel with
      | zero => omega
      | succ f =>
          have hlen : (Json.serItems (x :: y :: ys)).length
              = x.serL.length + 1 + (Json.serItems (y :: ys)).length := by
            simp only [Json.serItems, serMoreItems_eq, List.length_append,
              List.length_cons]
            omega
          have hfx : x.serL.length < f := by omega
          have hfy : (Json.serItems (y :: ys)).length + 1 < f := by omega
          have hv := rtVal x f (',' :: (Json.serItems (y :: ys) ++ ']' :: rest)) hfx rfl
          have key := rtItems y ys f rest hfy
          have harg : Json.serItems (x :: y :: ys) ++ ']' :: rest
              = x.serL ++ (',' :: (Json.serItems (y :: ys) ++ ']' :: rest)) := by
            simp only [Json.serItems, serMoreItems_eq, List.cons_append,
              List.append_assoc]
          rw [harg]
          simp only [pItems]
          rw [hv]
          simp only [key]
termination_by x xs _ _ _ => sizeOf x + sizeOf xs

theorem rtFields : ∀ (kv : String × Json) (fs : List (String × Json))
    (fuel : Nat) (rest : List Char),
    (Json.serFields (kv :: fs)).length + 1 < fuel →
    pFields fuel (Json.serFields (kv :: fs) ++ '}' :: rest) = some (kv :: fs, rest)
  | (k, v), [], fuel, rest, hf => by
      cases fuel with
      | zero => omega
      | succ f =>
          have hfx : v.serL.length < f := by
            simp only [Json.serFields, Json.serMoreFields, strChars,
              List.append_nil, List.length_append, List.length_cons] at hf
            omega
          have hv := rtVal v f ('}' :: rest) hfx rfl
          have harg : Json.serFields [(k, v)] ++ '}' :: rest
              = '"' :: (k.toList.flatMap escChar
                  ++ ('"' :: (':' :: (v.serL ++ '}' :: rest)))) := by
            simp [Json.serFields, Json.serMoreFields, strChars]
          rw [harg]
          simp only [pFields]
          rw [pStr_ser]
          simp only [hv]
  | (k, v), g :: gs, fuel, rest, hf => by
      cases fuel with
      | zero => omega
      | succ f =>
          have hlen : (Json.serFields ((k, v) :: g :: gs)).length
              = (strChars k).length + 1 + v.serL.length + 1
                + (Json.serFields (g :: gs)).length := by
            simp only [Json.serFields, serMoreFields_eq, List.length_append,
              List.length_cons]
            omega
          have hfx : v.serL.length < f := by omega
          have hfy : (Json.serFields (g :: gs)).length + 1 < f := by omega
          have hv := rtVal v f (',' :: (Json.serFields (g :: gs) ++ '}' :: rest)) hfx rfl
          have key := rtFields g gs f rest hfy
          have harg : Json.serFields ((k, v) :: g :: gs) ++ '}' :: rest
              = '"' :: (k.toList.flatMap escChar
                  ++ ('"' :: (':' :: (v.serL
                      ++ (',' :: (Json.serFields (g :: gs) ++ '}' :: rest)))))) := by
            simp only [Json.serFields, serMoreFields_eq, strChars,
              List.cons_append, List.append_assoc, List.nil_append]
          rw [harg]
          simp only [pFields]
          rw [pStr_ser]
          simp only [hv, key]
termination_by kv fs _ _ _ => sizeOf kv + sizeOf fs
end

/-- **Round trip**: the document parser inverts the serializer, so a
serialized document fed back through `deserializeJson` recovers the same
value. -/
theorem jsonParse_serialize (v : Json) : jsonParse (jsonSerialize v) = some v := by
  have h := rtVal v (v.serL.length + 1) [] (by omega) rfl
  rw [List.append_nil] at h
  have hl : (jsonSerialize v).toList = v.serL := rfl
  unfold jsonParse
  rw [hl, h]


/-! ### Field-write and copy lemmas -/

theorem lookupField_writeField_ne (fs : List (String × Json)) (key k : String)
    (v : Json) (h : k ≠ key) :
    Json.lookupField (Json.writeField fs key v) k = Json.lookupField fs k := by
  induction fs with
  | nil => simp [Json.writeField, Json.lookupField, Ne.symm h]
  | cons kv fs ih =>
      rcases kv with ⟨k0, w⟩
      by_cases h0 : k0 = key
      · subst h0
        simp only [Json.writeField, if_pos rfl]
        simp [Json.lookupField, Ne.symm h]
      · simp only [Json.writeField, if_neg h0]
        by_cases hk : k0 = k
        · simp [Json.lookupField, hk]
        · simp [Json.lookupField, hk, ih]

theorem writeField_fresh (fs : List (String × Json)) (key : String) (v : Json)
    (h : ∀ kv ∈ fs, kv.1 ≠ key) :
    Json.writeField fs key v = fs ++ [(key, v)] := by
  induction fs with
  | nil => rfl
  | cons kv fs ih =>
      rcases kv with ⟨k0, w⟩
      have h0 : k0 ≠ key := h (k0, w) (by simp)
      simp only [Json.writeField, if_neg h0, List.cons_append]
      rw [ih (fun kv hkv => h kv (by simp [hkv]))]

/-- No two members share a key. -/
def noDupKeys : List (String × Json) → Bool
  | [] => true
  | (k, _) :: fs => !(fs.any (fun kv => kv.1 == k)) && noDupKeys fs

theorem copyFold (fs : List (String × Json)) : ∀ acc : List (String × Json),
    noDupKeys fs = true → (∀ kv ∈ fs, ∀ kw ∈ acc, kw.1 ≠ kv.1) →
    fs.foldl (fun a kv => Json.writeField a kv.1 kv.2) acc = acc ++ fs := by
  induction fs with
  | nil => intro acc _ _; simp
  | cons kv fs ih =>
      intro acc hnd hfresh
      rcases kv with ⟨k, v⟩
      simp only [noDupKeys, Bool.and_eq_true, Bool.not_eq_true'] at hnd
      simp only [List.foldl_cons]
      rw [writeField_fresh acc k v (fun kw hkw => hfresh (k, v) (by simp) kw hkw)]
      rw [ih (acc ++ [(k, v)]) hnd.2]
      · simp
      · intro kw hkw kx hkx
        rw [List.mem_append] at hkx
        cases hkx with
        | inl hx => exact hfresh kw (by simp [hkw]) kx hx
        | inr hx =>
            rw [List.mem_singleton] at hx
            subst hx
            intro he
            have : fs.any (fun kv => kv.1 == k) = true :=
              List.any_eq_true.mpr ⟨kw, hkw, by simpa using he.symm⟩
            rw [this] at hnd
            exact absurd hnd.1 (by simp)

/-- Copying an object whose keys are distinct reproduces it. -/
theorem copyObj_nodup (fs : List (String × Json)) (h : noDupKeys fs = true) :
    Json.copyObj (.obj fs) = .obj fs := by
  unfold Json.copyObj
  rw [show (Json.obj fs).fields = fs from rfl, copyFold fs [] h (by simp)]
  simp

/-- ArduinoJson variant-to-literal comparison (`variant == "text"`): true
exactly for the equal string. -/
def Json.isStrEq (j : Json) (s : String) : Bool :=
  match j with
  | .str t => t == s
  | _ => false

/-! ### Configuration (`ESP32_AI_Connect_config.h`) -/

def AI_API_REQ_JSON_DOC_SIZE : Nat := 2048

/-- `AI_API_REQ_JSON_DOC_SIZE / 2`, the registry's size budget. -/
def MAX_TOTAL_TC_LENGTH : Nat := AI_API_REQ_JSON_DOC_SIZE / 2

/-! ### Tool Definition Registry (`ESP32_AI_Connect::setTCTools`) -/

/-- The per-definition rule a tool definition can break. -/
inductive TCRule where
  | badJson
  | noName
  | noParams
deriving Repr, DecidableEq

/-- A `setTCTools` validation failure, as structured data; `message` below
renders the `_lastError` string the source stores. -/
inductive TCErr where
  | tooLarge (total maxAllowed : Nat)
  | invalidJson (pos : Nat)
  | missingName (pos : Nat)
  | missingParameters (pos : Nat)
deriving Repr, DecidableEq

/-- The 1-based position of the failing definition, when the error names
one. -/
def TCErr.position : TCErr → Option Nat
  | .tooLarge _ _ => none
  | .invalidJson p => some p
  | .missingName p => some p
  | .missingParameters p => some p

/-- The `_lastError` text of each failure. -/
def TCErr.message : TCErr → String
  | .tooLarge total maxAllowed =>
      "Tool calls definition too large. Total size: " ++ toString total
        ++ " bytes, maximum allowed: " ++ toString maxAllowed ++ " bytes."
  | .invalidJson p => "Invalid JSON in tool #" ++ toString p
  | .missingName p => "Missing 'name' field in tool #" ++ toString p
  | .missingParameters p => "Missing 'parameters' field in tool #" ++ toString p

/-- Per-definition validation: well-formed JSON, then `name` and
`parameters` in either the bare shape or the wrapped
`{type, function:{...}}` shape. -/
def checkTool (t : String) : Option TCRule :=
  match jsonParse t with
  | none => some .badJson
  | some d =>
      let found :=
        if d.hasKey "name" then (true, d.hasKey "parameters")
        else if d.hasKey "type" && d.hasKey "function" then
          ((d.getD "function").hasKey "name", (d.getD "function").hasKey "parameters")
        else (false, false)
      if !found.1 then some .noName
      else if !found.2 then some .noParams
      else none

def TCRule.atPos : TCRule → Nat → TCErr
  | .badJson, p => .invalidJson p
  | .noName, p => .missingName p
  | .noParams, p => .missingParameters p

/-- The first failing definition, scanned in order with its 1-based
position. -/
def firstToolErr : List String → Nat → Option TCErr
  | [], _ => none
  | t :: ts, i =>
      match checkTool t with
      | some r => some (r.atPos (i + 1))
      | none => firstToolErr ts (i + 1)

def tcToolsTotalLen (tools : List String) : Nat := (tools.map String.length).sum

/-- `setTCTools` as a registry transaction: the new set on success, the
first validation failure otherwise (the stored set is only replaced on
success). -/
def setTCToolsE (tools : List String) : Except TCErr (List String) :=
  if tcToolsTotalLen tools > MAX_TOTAL_TC_LENGTH then
    .error (.tooLarge (tcToolsTotalLen tools) MAX_TOTAL_TC_LENGTH)
  else
    match firstToolErr tools 0 with
    | some e => .error e
    | none => .ok tools

/-! ### Conversation Orchestrator state (`ESP32_AI_Connect`) -/

/-- What a platform handler reports after parsing one response: the
returned content, the by-reference error message, and the finish
reason / token count it stores. -/
structure AdapterOut where
  content : String
  errorMsg : String
  finishReason : String
  totalTokens : Int

/-- The active platform handler, as the orchestrator sees it through
virtual dispatch: an endpoint, the two tool-call request builders, and the
tool-call response parser, each taking exactly the arguments the
orchestrator passes. -/
structure Handler where
  endpoint : (modelName apiKey customEndpoint : String) → String
  buildTC : (modelName : String) → (tools : List String) →
    (systemRole toolChoice : String) → (maxTokens : Int) →
    (userMessage : String) → String
  buildFollowUp : (modelName : String) → (tools : List String) →
    (systemRole toolChoice lastUserMessage lastAssistantToolCallsJson
      toolResultsJson : String) → (followUpMaxTokens : Int) →
    (followUpToolChoice : String) → String
  parseTC : (payload : String) → AdapterOut

/-- The orchestrator's state: the handler (none until a successful
`begin`), configuration, the tool registry, and the tool-calling
conversation tracking fields. -/
structure AIState where
  handler : Option Handler
  apiKey : String
  modelName : String
  customEndpoint : String
  tcTools : List String
  lastUserMessage : String
  lastAssistantToolCallsJson : String
  lastMessageWasToolCalls : Bool
  lastError : String
  tcRawResponse : String
  tcChatResponseCode : Int
  tcReplyResponseCode : Int
  tcSystemRole : String
  tcMaxToken : Int
  tcToolChoice : String
  tcFollowUpMaxToken : Int
  tcFollowUpToolChoice : String

/-- The outcome of one HTTP attempt, supplied by the transport
collaborator: the client failed to open the connection, or `POST`
returned a code (positive codes come with the response payload). -/
inductive Transport where
  | beginFail
  | post (code : Int) (payload : String)

/-- `HTTPClient::errorToString`, modelled as printing the code. -/
def httpErrText (code : Int) : String := toString code

/-- `ESP32_AI_Connect::setTCTools` acting on the client state. -/
def AI_setTCTools (st : AIState) (tools : List String) : AIState × Bool :=
  match setTCToolsE tools with
  | .ok ts => ({ st with lastError := "", tcTools := ts }, true)
  | .error e => ({ st with lastError := e.message }, false)

/-- `ESP32_AI_Connect::tcChat`. -/
def tcChat (st : AIState) (tcUserMessage : String) (tr : Transport) :
    AIState × String :=
  let st := { st with lastError := "", tcRawResponse := "", tcChatResponseCode := 0 }
  match st.handler with
  | none =>
      ({ st with lastError :=
          "Platform handler not initialized. Call begin() with a supported platform." }, "")
  | some h =>
    if st.tcTools.isEmpty then
      ({ st with lastError := "Tool calls not set up. Call setTCTools() first." }, "")
    else
      let st := { st with lastUserMessage := tcUserMessage,
                          lastAssistantToolCallsJson := "",
                          lastMessageWasToolCalls := false }
      let url := h.endpoint st.modelName st.apiKey st.customEndpoint
      if url = "" then
        ({ st with lastError := "Failed to get endpoint URL from platform handler." }, "")
      else
        let requestBody :=
          h.buildTC st.modelName st.tcTools st.tcSystemRole st.tcToolChoice
            st.tcMaxToken tcUserMessage
        if requestBody = "" then
          ({ st with lastError := "Failed to build tool calls request body." }, "")
        else
          match tr with
          | .beginFail =>
              ({ st with lastError :=
                  "HTTP Client failed to begin connection to: " ++ url }, "")
          | .post code payload =>
              let st := { st with tcChatResponseCode := code }
              if code > 0 then
                let st := { st with tcRawResponse := payload }
                if code = 200 then
                  let out := h.parseTC payload
                  let st := { st with lastError := out.errorMsg }
                  if out.content = "" ∧ out.errorMsg = "" then
                    ({ st with lastError :=
                        "Handler failed to parse tool calls response." }, out.content)
                  else
                    if out.finishReason = "tool_calls" ∨ out.finishReason = "tool_use" then
                      ({ st with lastMessageWasToolCalls := true,
                                 lastAssistantToolCallsJson := out.content }, out.content)
                    else
                      ({ st with lastMessageWasToolCalls := false }, out.content)
                else
                  ({ st with lastError :=
                      "HTTP Error: " ++ toString code ++ " - Response: " ++ payload }, "")
              else
                ({ st with lastError :=
                    "HTTP Request Failed: " ++ httpErrText code }, "")

/-- The element-wise validation `tcReply` runs over the tool-results
array before any network activity. -/
def resultsFieldError : List Json → Option String
  | [] => none
  | r :: rs =>
      if !r.hasKey "tool_call_id" then
        some "Each tool result must have a 'tool_call_id' field."
      else if !r.hasKey "function" then
        some "Each tool result must have a 'function' field."
      else if !(r.getD "function").hasKey "name" then
        some "Each tool result function must have a 'name' field."
      else if !(r.getD "function").hasKey "output" then
        some "Each tool result function must have an 'output' field."
      else resultsFieldError rs

/-- `ESP32_AI_Connect::tcReply`. -/
def tcReply (st : AIState) (toolResultsJson : String) (tr : Transport) :
    AIState × String :=
  let st := { st with lastError := "", tcRawResponse := "", tcReplyResponseCode := 0 }
  match st.handler with
  | none =>
      ({ st with lastError :=
          "Platform handler not initialized. Call begin() with a supported platform." }, "")
  | some h =>
    if st.tcTools.isEmpty then
      ({ st with lastError := "Tool calls not set up. Call setTCTools() first." }, "")
    else if !st.lastMessageWasToolCalls then
      ({ st with lastError :=
          "No tool calls to reply to. Call tcChat first and ensure it returns tool calls." }, "")
    else if toolResultsJson.length > AI_API_REQ_JSON_DOC_SIZE / 2 then
      ({ st with lastError := "Tool results JSON too large. Maximum size: "
          ++ toString (AI_API_REQ_JSON_DOC_SIZE / 2) ++ " bytes." }, "")
    else
      match jsonParse toolResultsJson with
      | none => ({ st with lastError := "Invalid JSON in tool results." }, "")
      | some doc =>
        if !doc.isArr then
          ({ st with lastError := "Tool results must be a JSON array." }, "")
        else
          match resultsFieldError doc.items with
          | some msg => ({ st with lastError := msg }, "")
          | none =>
            let url := h.endpoint st.modelName st.apiKey st.customEndpoint
            if url = "" then
              ({ st with lastError := "Failed to get endpoint URL from platform handler." }, "")
            else
              let requestBody :=
                h.buildFollowUp st.modelName st.tcTools st.tcSystemRole st.tcToolChoice
                  st.lastUserMessage st.lastAssistantToolCallsJson toolResultsJson
                  st.tcFollowUpMaxToken st.tcFollowUpToolChoice
              if requestBody = "" then
                ({ st with lastError := "Failed to build tool calls follow-up request body." }, "")
              else
                match tr with
                | .beginFail =>
                    ({ st with lastError :=
                        "HTTP Client failed to begin connection to: " ++ url }, "")
                | .post code payload =>
                    let st := { st with tcReplyResponseCode := code }
                    if code > 0 then
                      let st := { st with tcRawResponse := payload }
                      if code = 200 then
                        let out := h.parseTC payload
                        let st := { st with lastError := out.errorMsg }
                        if out.content = "" ∧ out.errorMsg = "" then
                          ({ st with lastError :=
                              "Handler failed to parse tool calls follow-up response." },
                           out.content)
                        else
                          if out.finishReason = "tool_calls" ∨ out.finishReason = "tool_use" then
                            ({ st with lastMessageWasToolCalls := true,
                                       lastAssistantToolCallsJson := out.content }, out.content)
                          else
                            ({ st with lastMessageWasToolCalls := false }, out.content)
                      else
                        ({ st with lastError :=
                            "HTTP Error: " ++ toString code ++ " - Response: " ++ payload }, "")
                    else
                      ({ st with lastError :=
                          "HTTP Request Failed: " ++ httpErrText code }, "")

/-! ### Shared adapter copy helpers -/

def Json.isNull : Json → Bool
  | .null => true
  | _ => false

/-- Two-level copy of an object's members: object values are copied
member-by-member into fresh nested objects, everything else is assigned
verbatim (the `if (kv.value().is<JsonObject>()) ... else dst[key] = value`
loop several adapters use). -/
def Json.copyDeep2 (j : Json) : Json :=
  .obj (j.fields.foldl (fun acc kv =>
    Json.writeField acc kv.1 (if kv.2.isObj then Json.copyObj kv.2 else kv.2)) [])

/-! ### Claude adapter (`AI_API_Claude_Handler`) -/

/-- One tool definition translated to Claude's shape: `input_schema`
replaces `parameters`; both the wrapped `{type, function}` input shape and
the bare shape are accepted. -/
def claudeConvTool (td : Json) : Json :=
  if td.hasKey "type" && td.hasKey "function" then
    let f := td.getD "function"
    .obj [("name", .str (f.getD "name").asString),
          ("description", .str (f.getD "description").asString),
          ("input_schema", Json.copyObj (f.getD "parameters"))]
  else
    .obj ([("name", .str (td.getD "name").asString)]
      ++ (if td.hasKey "description" then
            [("description", .str (td.getD "description").asString)] else [])
      ++ [("input_schema", Json.copyObj (td.getD "parameters"))])

/-- All registered definitions translated; `none` when one fails to parse
(the builder then returns the empty body). -/
def claudeConvTools (tools : List String) : Option (List Json) :=
  tools.mapM (fun t => (jsonParse t).map claudeConvTool)

/-- The member-by-member copy the tool-choice branch performs on a parsed
JSON object choice. -/
def claudeCopyChoice (j : Json) : Json :=
  .obj (j.fields.foldl (fun acc kv =>
    Json.writeField acc kv.1 (if kv.2.isObj then Json.copyObj kv.2 else kv.2)) [])

/-- The `tool_choice` value Claude receives: recognized keywords become
`{type: <keyword>}`, a JSON object string is copied, anything else is still
submitted as `{type: <text>}` (with a warning in the source). -/
def claudeToolChoiceVal (trimmed : String) : Json :=
  if trimmed = "auto" || trimmed = "any" || trimmed = "none" then
    .obj [("type", .str trimmed)]
  else if trimmed.startsWith "\x7b" then
    match jsonParse trimmed with
    | some j => claudeCopyChoice j
    | none => .obj [("type", .str trimmed)]
  else .obj [("type", .str trimmed)]

/-- Appends `tool_choice` to the document when a choice is configured. -/
def claudeAddToolChoice (ms : List (String × Json)) (choice : String) :
    List (String × Json) :=
  if choice = "" then ms
  else Json.writeField ms "tool_choice" (claudeToolChoiceVal choice.trim)

/-- `AI_API_Claude_Handler::buildToolCallsRequestBody`, at the document
level. -/
def claudeBuildToolCallsDoc (modelName : String) (tools : List String)
    (systemMessage toolChoice : String) (maxTokens : Int)
    (userMessage : String) : Option Json :=
  match claudeConvTools tools with
  | none => none
  | some toolObjs =>
      let ms := [("model", Json.str modelName),
                 ("max_tokens", Json.num (if maxTokens > 0 then maxTokens else 1024))]
        ++ (if systemMessage ≠ "" then [("system", Json.str systemMessage)] else [])
        ++ [("tools", Json.arr toolObjs),
            ("messages", Json.arr
              [Json.obj [("role", Json.str "user"),
                         ("content", Json.str userMessage)]])]
      some (.obj (claudeAddToolChoice ms toolChoice))

def claudeBuildToolCallsRequestBody (modelName : String) (tools : List String)
    (systemMessage toolChoice : String) (maxTokens : Int)
    (userMessage : String) : String :=
  match claudeBuildToolCallsDoc modelName tools systemMessage toolChoice
      maxTokens userMessage with
  | some d => jsonSerialize d
  | none => ""

/-- Whether a content block is a `tool_use` block. -/
def claudeIsToolUse (b : Json) : Bool := (b.getD "type").isStrEq "tool_use"

/-- The `arguments` string of one `tool_use` block: its `input` object
serialized, or `{}` when there is no input object. -/
def claudeArgsStr (b : Json) : String :=
  if b.hasKey "input" && (b.getD "input").isObj then jsonSerialize (b.getD "input")
  else "\x7b\x7d"

/-- One `tool_use` block converted to the uniform (OpenAI-compatible)
tool-call element. -/
def claudeMkToolCall (b : Json) : Json :=
  .obj [("id", b.getD "id"), ("type", .str "function"),
        ("function", .obj [("name", b.getD "name"),
                           ("arguments", .str (claudeArgsStr b))])]

/-- The uniform tool-call elements extracted from a content array. -/
def claudeExtractToolCalls (blocks : List Json) : List Json :=
  (blocks.filter claudeIsToolUse).map claudeMkToolCall

/-- Concatenated text of the `text` blocks. -/
def claudeTextOf (blocks : List Json) : String :=
  blocks.foldl (fun acc b =>
    if (b.getD "type").isStrEq "text" then acc ++ (b.getD "text").asString else acc) ""

/-- `AI_API_Claude_Handler::parseToolCallsResponseBody` on an already
deserialized response document. -/
def claudeParseTCDoc (doc : Json) : AdapterOut :=
  if doc.hasKey "error" then
    { content := "",
      errorMsg := if (doc.getD "error").hasKey "message" then
          "API error: " ++ ((doc.getD "error").getD "message").asString
        else "Unknown API error",
      finishReason := "", totalTokens := 0 }
  else
    let tt := if doc.hasKey "usage" then
        ((doc.getD "usage").getD "input_tokens").asInt
          + ((doc.getD "usage").getD "output_tokens").asInt
      else 0
    let fr := if doc.hasKey "stop_reason" then (doc.getD "stop_reason").asString else ""
    if !(doc.hasKey "content" && (doc.getD "content").isArr) then
      { content := "", errorMsg := "No content array found in response",
        finishReason := fr, totalTokens := tt }
    else
      let blocks := (doc.getD "content").items
      if blocks.any claudeIsToolUse then
        { content := jsonSerialize (.arr (claudeExtractToolCalls blocks)),
          errorMsg := "", finishReason := fr, totalTokens := tt }
      else
        { content := claudeTextOf blocks, errorMsg := "",
          finishReason := fr, totalTokens := tt }

def claudeParseToolCallsResponseBody (payload : String) : AdapterOut :=
  match jsonParse payload with
  | none => { content := "", errorMsg := "JSON parsing error",
              finishReason := "", totalTokens := 0 }
  | some doc => claudeParseTCDoc doc

/-- One uniform tool call re-expressed as a Claude `tool_use` block for
the follow-up's assistant turn: same id and name, `input` parsed back from
the `arguments` string (empty when the arguments do not parse). -/
def claudeToolUseBlock (tc : Json) : Json :=
  .obj [("type", .str "tool_use"),
        ("id", .str (tc.getD "id").asString),
        ("name", .str ((tc.getD "function").getD "name").asString),
        ("input", match jsonParse ((tc.getD "function").getD "arguments").asString with
          | some a => Json.copyObj a
          | none => .obj [])]

/-- The assistant turn's content array in the follow-up request: a native
content array is copied; the uniform tool-call array gets a leading
placeholder text block followed by one `tool_use` block per call. -/
def claudeAssistantContent (ad : Json) : List Json :=
  if ad.hasKey "content" && (ad.getD "content").isArr then (ad.getD "content").items
  else if ad.isArr then
    Json.obj [("type", .str "text"), ("text", .str "I'll help you with that.")]
      :: ad.items.map claudeToolUseBlock
  else []

/-- One caller tool result re-expressed as a Claude `tool_result` block;
a result without `tool_call_id` contributes a bare block (the source
`continue`s after creating it). -/
def claudeToolResultBlock (r : Json) : Json :=
  if r.hasKey "tool_call_id" then
    .obj ([("type", .str "tool_result"),
           ("tool_use_id", .str (r.getD "tool_call_id").asString)]
      ++ (if r.hasKey "function" && (r.getD "function").hasKey "output" then
            [("content", .str ((r.getD "function").getD "output").asString)] else [])
      ++ (if r.hasKey "is_error" && (r.getD "is_error").asBool then
            [("is_error", .bool true)] else []))
  else .obj [("type", .str "tool_result")]

/-- `AI_API_Claude_Handler::buildToolCallsFollowUpRequestBody`, at the
document level (`none` models the empty-body failure returns). -/
def claudeBuildFollowUpDoc (modelName : String) (tools : List String)
    (systemMessage toolChoice lastUserMessage lastAssistantToolCallsJson
      toolResultsJson : String) (followUpMaxTokens : Int)
    (followUpToolChoice : String) : Option Json :=
  match claudeConvTools tools with
  | none => none
  | some toolObjs =>
    match jsonParse lastAssistantToolCallsJson with
    | none => none
    | some ad =>
      match jsonParse toolResultsJson with
      | none => none
      | some rd =>
        let ms := [("model", Json.str modelName),
                   ("max_tokens", Json.num
                     (if followUpMaxTokens > 0 then followUpMaxTokens else 1024))]
          ++ (if systemMessage ≠ "" then [("system", Json.str systemMessage)] else [])
          ++ [("tools", Json.arr toolObjs),
              ("messages", Json.arr
                [Json.obj [("role", Json.str "user"),
                           ("content", Json.str lastUserMessage)],
                 Json.obj [("role", Json.str "assistant"),
                           ("content", Json.arr (claudeAssistantContent ad))],
                 Json.obj [("role", Json.str "user"),
                           ("content", Json.arr (rd.items.map claudeToolResultBlock))]])]
        some (.obj (claudeAddToolChoice ms followUpToolChoice))

def claudeBuildToolCallsFollowUpRequestBody (modelName : String)
    (tools : List String)
    (systemMessage toolChoice lastUserMessage lastAssistantToolCallsJson
      toolResultsJson : String) (followUpMaxTokens : Int)
    (followUpToolChoice : String) : String :=
  match claudeBuildFollowUpDoc modelName tools systemMessage toolChoice
      lastUserMessage lastAssistantToolCallsJson toolResultsJson
      followUpMaxTokens followUpToolChoice with
  | some d => jsonSerialize d
  | none => ""

/-! ### Gemini adapter (`AI_API_Gemini_Handler`) -/

/-- ASCII upper-casing of one character, as Arduino `toUpperCase` does. -/
def upChar (c : Char) : Char :=
  if 'a' <= c && c <= 'z' then Char.ofNat (c.toNat - 32) else c

/-- ASCII upper-casing, as Arduino `String::toUpperCase` does. -/
def strUpper (s : String) : String := ⟨s.data.map upChar⟩

/-- ASCII lower-casing of one character, as Arduino `toLowerCase` does. -/
def lowChar (c : Char) : Char :=
  if 'A' <= c && c <= 'Z' then Char.ofNat (c.toNat + 32) else c

/-- ASCII lower-casing, as Arduino `String::toLowerCase` does. -/
def strLower (s : String) : String := ⟨s.data.map lowChar⟩

/-- One direct property of an `object` schema converted for Gemini: the
`type` value upper-cased, `description` and `enum` carried over — and
nothing else. -/
def geminiConvProp (p : Json) : Json :=
  .obj ((if p.hasKey "type" then
           [("type", Json.str (strUpper (p.getD "type").asString))] else [])
    ++ (if p.hasKey "description" then [("description", p.getD "description")] else [])
    ++ (if p.hasKey "enum" then [("enum", Json.arr (p.getD "enum").items)] else []))

/-- The direct copy the non-`object` branch performs: nested objects are
copied member-by-member, arrays item-by-item, scalars verbatim. -/
def geminiCopyParams (ps : Json) : Json :=
  .obj (ps.fields.foldl (fun acc kv =>
    Json.writeField acc kv.1
      (match kv.2 with
       | .obj gs => Json.copyObj (.obj gs)
       | .arr xs => .arr xs
       | v => v)) [])

/-- The parameter schema translated for Gemini: a schema declaring
`type: "object"` becomes `type: "OBJECT"` with each direct property run
through `geminiConvProp` and the `required` list copied; any other schema
is copied as-is. -/
def geminiConvParams (ps : Json) : Json :=
  if ps.hasKey "type" && (ps.getD "type").isStrEq "object" then
    .obj ([("type", Json.str "OBJECT")]
      ++ (if ps.hasKey "properties" then
            [("properties", Json.obj
              ((ps.getD "properties").fields.map (fun kv => (kv.1, geminiConvProp kv.2))))]
          else [])
      ++ (if ps.hasKey "required" then
            [("required", Json.arr (ps.getD "required").items)] else []))
  else geminiCopyParams ps

/-- One tool definition turned into a Gemini `functionDeclaration`;
`none` when the definition has no name (the source skips it). -/
def geminiFuncDecl (td : Json) : Option Json :=
  let src := if td.hasKey "type" && td.hasKey "function" then td.getD "function" else td
  let name := if src.hasKey "name" then (src.getD "name").asString else ""
  let descr := if src.hasKey "description" then (src.getD "description").asString else ""
  let params := if src.hasKey "parameters" then src.getD "parameters" else Json.null
  if name = "" then none
  else some (.obj ([("name", Json.str name)]
    ++ (if descr ≠ "" then [("description", Json.str descr)] else [])
    ++ (if !params.isNull then [("parameters", geminiConvParams params)] else [])))

/-- Writes Gemini's nested `tool_config.function_calling_config.mode`. -/
def geminiToolConfig (mode : String) (ms : List (String × Json)) :
    List (String × Json) :=
  Json.writeField ms "tool_config"
    (.obj [("function_calling_config", .obj [("mode", Json.str mode)])])

/-- Gemini's tool-choice translation: a `{type:"function"}` object forces
mode `ANY`; `auto`/`none`/`any`/`required` map to the upper-cased mode;
anything else adds nothing (warn-and-skip in the source). -/
def geminiAddToolChoice (ms : List (String × Json)) (choice : String) :
    List (String × Json) :=
  if choice = "" then ms
  else
    let trimmed := choice.trim
    if trimmed.startsWith "\x7b" then
      match jsonParse trimmed with
      | some j =>
          if j.hasKey "type" && (j.getD "type").isStrEq "function" then
            geminiToolConfig "ANY" ms
          else ms
      | none => ms
    else if strLower trimmed = "auto" then geminiToolConfig "AUTO" ms
    else if strLower trimmed = "none" then geminiToolConfig "NONE" ms
    else if strLower trimmed = "required" || strLower trimmed = "any" then
      geminiToolConfig (strUpper trimmed) ms
    else ms

/-- `AI_API_Gemini_Handler::buildToolCallsRequestBody`, at the document
level (tool definitions that fail to parse or lack a name are skipped, so
the build itself never fails). -/
def geminiBuildToolCallsDoc (modelName : String) (tools : List String)
    (systemMessage toolChoice : String) (maxTokens : Int)
    (userMessage : String) : Json :=
  let ms := (if systemMessage ≠ "" then
      [("systemInstruction", Json.obj
        [("parts", Json.arr [Json.obj [("text", Json.str systemMessage)]])])]
    else [])
    ++ (if maxTokens > 0 then
          [("generationConfig", Json.obj [("maxOutputTokens", Json.num maxTokens)])]
        else [])
    ++ [("contents", Json.arr
          [Json.obj [("role", Json.str "user"),
                     ("parts", Json.arr [Json.obj [("text", Json.str userMessage)]])]]),
        ("tools", Json.arr
          [Json.obj [("functionDeclarations", Json.arr
            (tools.filterMap (fun t => (jsonParse t).bind geminiFuncDecl)))]])]
  .obj (geminiAddToolChoice ms toolChoice)

def geminiBuildToolCallsRequestBody (modelName : String) (tools : List String)
    (systemMessage toolChoice : String) (maxTokens : Int)
    (userMessage : String) : String :=
  jsonSerialize (geminiBuildToolCallsDoc modelName tools systemMessage toolChoice
    maxTokens userMessage)

/-- One Gemini `functionCall` part converted to a uniform tool-call
element: `type` and, when the call carries a name, a `function` object
with the name and the serialized `args` — but never an `id`. -/
def geminiMkToolCall (fc : Json) : Json :=
  .obj (("type", Json.str "function")
    :: (if fc.hasKey "name" then
          [("function", Json.obj (("name", Json.str (fc.getD "name").asString)
            :: (if fc.hasKey "args" then
                  [("arguments", Json.str (jsonSerialize (fc.getD "args")))] else [])))]
        else []))

/-- The uniform tool-call elements extracted from a Gemini `parts` array. -/
def geminiExtractToolCalls (parts : List Json) : List Json :=
  (parts.filter (fun p => p.hasKey "functionCall")).map
    (fun p => geminiMkToolCall (p.getD "functionCall"))

/-- `doc["error"]["message"] | "Unknown error"`. -/
def geminiErrMsg (doc : Json) : String :=
  match (doc.getD "error").getD "message" with
  | .str s => s
  | _ => "Unknown error"

/-- `AI_API_Gemini_Handler::parseToolCallsResponseBody` on an already
deserialized response document. -/
def geminiParseTCDoc (doc : Json) : AdapterOut :=
  if doc.hasKey "error" then
    { content := "", errorMsg := "API Error: " ++ geminiErrMsg doc,
      finishReason := "", totalTokens := 0 }
  else
    let tt := if doc.hasKey "usageMetadata" && (doc.getD "usageMetadata").isObj
        && (doc.getD "usageMetadata").hasKey "totalTokenCount" then
        ((doc.getD "usageMetadata").getD "totalTokenCount").asInt
      else 0
    if doc.hasKey "candidates" && (doc.getD "candidates").isArr
        && !(doc.getD "candidates").items.isEmpty
        && ((doc.getD "candidates").items.headD .null).hasKey "content" then
      let content := ((doc.getD "candidates").items.headD .null).getD "content"
      if content.hasKey "parts" && (content.getD "parts").isArr then
        let parts := (content.getD "parts").items
        let tcs := geminiExtractToolCalls parts
        if !tcs.isEmpty then
          { content := jsonSerialize (.arr tcs), errorMsg := "",
            finishReason := "tool_calls", totalTokens := tt }
        else
          match parts.find? (fun p => p.hasKey "text") with
          | some p =>
              { content := (p.getD "text").asString, errorMsg := "",
                finishReason := "stop", totalTokens := tt }
          | none =>
              { content := "",
                errorMsg := "Response contained neither function calls nor text content",
                finishReason := "", totalTokens := tt }
      else
        { content := "", errorMsg := "Could not find 'parts' array in response 'content'",
          finishReason := "", totalTokens := tt }
    else
      { content := "",
        errorMsg := "Invalid Gemini response format: Missing 'candidates' or expected content structure",
        finishReason := "", totalTokens := tt }

def geminiParseToolCallsResponseBody (payload : String) : AdapterOut :=
  match jsonParse payload with
  | none => { content := "", errorMsg := "JSON Deserialization failed.",
              finishReason := "", totalTokens := 0 }
  | some doc => geminiParseTCDoc doc

/-! ### DeepSeek adapter (`AI_API_DeepSeek_Handler`), follow-up builder -/

/-- One caller tool result as an independent `role:"tool"` message:
`tool_call_id` and the function output as `content`, each carried over
when present. -/
def dsToolMsg (r : Json) : Json :=
  .obj ([("role", Json.str "tool")]
    ++ (if r.hasKey "tool_call_id" then [("tool_call_id", r.getD "tool_call_id")] else [])
    ++ (if r.hasKey "function" && (r.getD "function").isObj
          && (r.getD "function").hasKey "output" then
          [("content", (r.getD "function").getD "output")] else []))

/-- DeepSeek's follow-up `tool_choice` value: recognized keywords stay
strings, JSON object strings are copied, anything else is submitted as the
raw string. -/
def dsChoiceVal (trimmed : String) : Json :=
  if trimmed = "auto" || trimmed = "none" || trimmed = "required" then Json.str trimmed
  else if trimmed.startsWith "\x7b" then
    match jsonParse trimmed with
    | some j => Json.copyDeep2 j
    | none => Json.str trimmed
  else Json.str trimmed

def dsAddToolChoice (ms : List (String × Json)) (choice : String) :
    List (String × Json) :=
  if choice = "" then ms
  else Json.writeField ms "tool_choice" (dsChoiceVal choice.trim)

/-- One tool definition translated for DeepSeek: the wrapped shape is
copied field-by-field, the bare shape is wrapped into
`{type:"function", function:{...}}`; unparseable definitions are skipped. -/
def dsConvTool (t : String) : Option Json :=
  match jsonParse t with
  | none => none
  | some td =>
      if td.hasKey "type" && td.hasKey "function" then
        let f := td.getD "function"
        some (.obj [("type", td.getD "type"),
                    ("function", Json.obj
                      ((if f.hasKey "name" then
                          [("name", Json.str (f.getD "name").asString)] else [])
                      ++ (if f.hasKey "description" then
                            [("description", Json.str (f.getD "description").asString)]
                          else [])
                      ++ (if f.hasKey "parameters" then
                            [("parameters", geminiCopyParams (f.getD "parameters"))]
                          else [])))])
      else
        some (.obj [("type", Json.str "function"),
                    ("function", Json.obj ((Json.copyDeep2 td).fields))])

/-- `AI_API_DeepSeek_Handler::buildToolCallsFollowUpRequestBody`, at the
document level.  The assistant turn carries `role` and (when the stored
uniform array parses) a copied `tool_calls` array — and no `content`
member at all. -/
def deepseekBuildFollowUpDoc (modelName : String) (tools : List String)
    (systemMessage toolChoice lastUserMessage lastAssistantToolCallsJson
      toolResultsJson : String) (followUpMaxTokens : Int)
    (followUpToolChoice : String) : Json :=
  let assistantMsg := Json.obj (("role", Json.str "assistant")
    :: (match jsonParse lastAssistantToolCallsJson with
        | some (.arr tcs) => [("tool_calls", Json.arr (tcs.map Json.copyDeep2))]
        | _ => []))
  let toolMsgs := match jsonParse toolResultsJson with
    | some (.arr rs) => rs.map dsToolMsg
    | _ => []
  let msgs := (if systemMessage ≠ "" then
      [Json.obj [("role", Json.str "system"), ("content", Json.str systemMessage)]]
    else [])
    ++ [Json.obj [("role", Json.str "user"), ("content", Json.str lastUserMessage)],
        assistantMsg]
    ++ toolMsgs
  let ms := [("model", Json.str modelName)]
    ++ (if followUpMaxTokens > 0 then [("max_tokens", Json.num followUpMaxTokens)] else [])
    ++ [("messages", Json.arr msgs)]
  .obj (Json.writeField (dsAddToolChoice ms followUpToolChoice) "tools"
    (Json.arr (tools.filterMap dsConvTool)))

def deepseekBuildToolCallsFollowUpRequestBody (modelName : String)
    (tools : List String)
    (systemMessage toolChoice lastUserMessage lastAssistantToolCallsJson
      toolResultsJson : String) (followUpMaxTokens : Int)
    (followUpToolChoice : String) : String :=
  jsonSerialize (deepseekBuildFollowUpDoc modelName tools systemMessage toolChoice
    lastUserMessage lastAssistantToolCallsJson toolResultsJson
    followUpMaxTokens followUpToolChoice)

/-! ### Lookup lemmas through the builders -/

theorem getKey_claudeAddToolChoice (ms : List (String × Json)) (choice k : String)
    (h : k ≠ "tool_choice") :
    Json.lookupField (claudeAddToolChoice ms choice) k = Json.lookupField ms k := by
  unfold claudeAddToolChoice
  by_cases hc : choice = ""
  · simp [hc]
  · simp [hc, lookupField_writeField_ne _ _ _ _ h]

theorem getKey_dsAddToolChoice (ms : List (String × Json)) (choice k : String)
    (h : k ≠ "tool_choice") :
    Json.lookupField (dsAddToolChoice ms choice) k = Json.lookupField ms k := by
  unfold dsAddToolChoice
  by_cases hc : choice = ""
  · simp [hc]
  · simp [hc, lookupField_writeField_ne _ _ _ _ h]

/-- C6: for the content-block (Claude) adapter, both tool-call request
builders always emit `max_tokens`: the configured value when it is
positive, the fixed fallback `1024` otherwise. -/
theorem claude_max_tokens_always_emitted
    (modelName : String) (tools : List String)
    (systemMessage toolChoice userMessage lastUserMessage
      lastAssistantToolCallsJson toolResultsJson followUpToolChoice : String)
    (maxTokens followUpMaxTokens : Int) :
    (∀ d, claudeBuildToolCallsDoc modelName tools systemMessage toolChoice
        maxTokens userMessage = some d →
      d.getKey "max_tokens"
        = some (.num (if maxTokens > 0 then maxTokens else 1024)))
    ∧ (∀ d, claudeBuildFollowUpDoc modelName tools systemMessage toolChoice
        lastUserMessage lastAssistantToolCallsJson toolResultsJson
        followUpMaxTokens followUpToolChoice = some d →
      d.getKey "max_tokens"
        = some (.num (if followUpMaxTokens > 0 then followUpMaxTokens else 1024))) := by
  constructor
  · intro d hd
    unfold claudeBuildToolCallsDoc at hd
    cases hconv : claudeConvTools tools with
    | none => rw [hconv] at hd; cases hd
    | some toolObjs =>
        rw [hconv] at hd
        simp only [Option.some.injEq] at hd
        subst hd
        unfold Json.getKey
        rw [show ∀ fs, (Json.obj fs).fields = fs from fun _ => rfl]
        rw [getKey_claudeAddToolChoice _ _ _ (by decide)]
        by_cases hs : systemMessage ≠ "" <;> simp [hs, Json.lookupField]
  · intro d hd
    unfold claudeBuildFollowUpDoc at hd
    cases hconv : claudeConvTools tools with
    | none => rw [hconv] at hd; cases hd
    | some toolObjs =>
        rw [hconv] at hd
        cases had : jsonParse lastAssistantToolCallsJson with
        | none => rw [had] at hd; cases hd
        | some ad =>
            rw [had] at hd
            cases hrd : jsonParse toolResultsJson with
            | none => rw [hrd] at hd; cases hd
            | some rd =>
                rw [hrd] at hd
                simp only [Option.some.injEq] at hd
                subst hd
                unfold Json.getKey
                rw [show ∀ fs, (Json.obj fs).fields = fs from fun _ => rfl]
                rw [getKey_claudeAddToolChoice _ _ _ (by decide)]
                by_cases hs : systemMessage ≠ "" <;> simp [hs, Json.lookupField]

/-- Witness for `claude_max_tokens_always_emitted`: with `maxTokens`
unset (negative), both emitted bodies carry `max_tokens = 1024`. -/
theorem claude_max_tokens_always_emitted_witness :
    ∃ d1 d2, claudeBuildToolCallsDoc "m" [] "" "" (-1) "hi" = some d1
      ∧ d1.getKey "max_tokens" = some (.num 1024)
      ∧ claudeBuildFollowUpDoc "m" [] "" "" "hi" "[]" "[]" (-1) "" = some d2
      ∧ d2.getKey "max_tokens" = some (.num 1024) := by
  refine ⟨_, _, rfl, ?_, rfl, ?_⟩
  · exact (claude_max_tokens_always_emitted "m" [] "" "" "hi" "" "" "" "" (-1) 0).1 _ rfl
  · exact (claude_max_tokens_always_emitted "m" [] "" "" "" "hi" "[]" "[]" "" 0 (-1)).2 _ rfl

/-! ### Concrete fixtures -/

/-- A freshly constructed client whose `begin` failed: no handler, no
tools, everything at its defaults. -/
def stIdle : AIState :=
  { handler := none, apiKey := "", modelName := "", customEndpoint := "",
    tcTools := [], lastUserMessage := "", lastAssistantToolCallsJson := "",
    lastMessageWasToolCalls := false, lastError := "", tcRawResponse := "",
    tcChatResponseCode := 0, tcReplyResponseCode := 0, tcSystemRole := "",
    tcMaxToken := -1, tcToolChoice := "", tcFollowUpMaxToken := -1,
    tcFollowUpToolChoice := "" }

/-- A well-behaved platform handler for concrete runs. -/
def hStub : Handler :=
  { endpoint := fun _ _ _ => "https://api.example/v1",
    buildTC := fun _ _ _ _ _ _ => "\x7b\x7d",
    buildFollowUp := fun _ _ _ _ _ _ _ _ _ => "\x7b\x7d",
    parseTC := fun _ =>
      { content := "", errorMsg := "", finishReason := "", totalTokens := 0 } }

/-- C4 (amended): `tcReply` while not awaiting tool results always
returns the empty sentinel without any network activity (the outcome does
not depend on the transport, no response code or raw response is stored);
the "No tool calls to reply to" error is the one reported when the handler
is initialized and tools are registered — otherwise the earlier
precondition error is reported instead. -/
theorem tcReply_not_awaiting (st : AIState) (results : String)
    (tr tr2 : Transport) (hf : st.lastMessageWasToolCalls = false) :
    (tcReply st results tr).2 = ""
    ∧ (tcReply st results tr).1.tcReplyResponseCode = 0
    ∧ (tcReply st results tr).1.tcRawResponse = ""
    ∧ tcReply st results tr = tcReply st results tr2
    ∧ (∀ hdl, st.handler = some hdl → st.tcTools ≠ [] →
        (tcReply st results tr).1.lastError
          = "No tool calls to reply to. Call tcChat first and ensure it returns tool calls.") := by
  unfold tcReply
  cases hh : st.handler with
  | none => simp
  | some hdl =>
      by_cases ht : st.tcTools.isEmpty
      · have ht2 : st.tcTools = [] := by simpa using ht
        simp [ht, hh, ht2]
      · simp [ht, hf]

/-- A client with a handler and one registered tool. -/
def stReady : AIState := { stIdle with handler := some hStub, tcTools := ["\x7b\x7d"] }

/-- Witness for `tcReply_not_awaiting` at a concrete idle client. -/
theorem tcReply_not_awaiting_witness :
    (tcReply stReady "[]" .beginFail).2 = ""
    ∧ (tcReply stReady "[]" .beginFail).1.tcReplyResponseCode = 0
    ∧ (tcReply stReady "[]" .beginFail).1.tcRawResponse = ""
    ∧ tcReply stReady "[]" .beginFail = tcReply stReady "[]" (.post 200 "x")
    ∧ (∀ hdl, stReady.handler = some hdl → stReady.tcTools ≠ [] →
        (tcReply stReady "[]" .beginFail).1.lastError
          = "No tool calls to reply to. Call tcChat first and ensure it returns tool calls.") :=
  tcReply_not_awaiting stReady "[]" .beginFail (.post 200 "x") rfl

/-- C4 counterexample: with the awaiting flag false but no tools
registered, the reported error is the tool-setup error, not the
"No tool calls to reply to" message the claim requires. -/
theorem tcReply_idle_error_counterexample :
    ({ stIdle with handler := some hStub } : AIState).lastMessageWasToolCalls = false
    ∧ (tcReply { stIdle with handler := some hStub } "[]" .beginFail).1.lastError
        = "Tool calls not set up. Call setTCTools() first."
    ∧ "Tool calls not set up. Call setTCTools() first."
        ≠ "No tool calls to reply to. Call tcChat first and ensure it returns tool calls." :=
  ⟨rfl, rfl, by decide⟩

/-- C10 (amended): `setTCTools` with an empty set always succeeds and
empties the registry, and every subsequent `tcChat`/`tcReply` on a client
whose handler is initialized fails before any network activity with the
tool-setup error (without the handler the earlier initialization error is
reported). -/
theorem setTCTools_empty_clears (st : AIState) :
    AI_setTCTools st [] = ({ st with lastError := "", tcTools := [] }, true)
    ∧ (∀ (st2 : AIState) (hdl : Handler) (msg : String) (tr : Transport),
        st2.handler = some hdl → st2.tcTools = [] →
        tcChat st2 msg tr
          = ({ st2 with
                lastError := "Tool calls not set up. Call setTCTools() first.",
                tcRawResponse := "", tcChatResponseCode := 0 }, ""))
    ∧ (∀ (st2 : AIState) (hdl : Handler) (results : String) (tr : Transport),
        st2.handler = some hdl → st2.tcTools = [] →
        tcReply st2 results tr
          = ({ st2 with
                lastError := "Tool calls not set up. Call setTCTools() first.",
                tcRawResponse := "", tcReplyResponseCode := 0 }, "")) := by
  refine ⟨rfl, ?_, ?_⟩
  · intro st2 hdl msg tr hh ht
    unfold tcChat
    simp [hh, ht]
  · intro st2 hdl results tr hh ht
    unfold tcReply
    simp [hh, ht]

/-- Witness for `setTCTools_empty_clears` at a concrete client. -/
theorem setTCTools_empty_clears_witness :
    AI_setTCTools stReady []
      = ({ stReady with lastError := "", tcTools := [] }, true)
    ∧ tcChat { stIdle with handler := some hStub } "hi" .beginFail
        = ({ stIdle with
              handler := some hStub,
              lastError := "Tool calls not set up. Call setTCTools() first.",
              tcRawResponse := "", tcChatResponseCode := 0 }, "")
    ∧ tcReply { stIdle with handler := some hStub } "[]" .beginFail
        = ({ stIdle with
              handler := some hStub,
              lastError := "Tool calls not set up. Call setTCTools() first.",
              tcRawResponse := "", tcReplyResponseCode := 0 }, "") :=
  ⟨(setTCTools_empty_clears stReady).1,
   (setTCTools_empty_clears stIdle).2.1 _ hStub "hi" .beginFail rfl rfl,
   (setTCTools_empty_clears stIdle).2.2 _ hStub "[]" .beginFail rfl rfl⟩

/-- C10 counterexample: after `setTCTools([])` on a client with no
handler, the next `tcChat` does fail before any network activity — but
with the handler-initialization error, not the tool-setup error the claim
names. -/
theorem tcChat_after_empty_setTCTools_counterexample :
    (AI_setTCTools stIdle []).2 = true
    ∧ (AI_setTCTools stIdle []).1.tcTools = []
    ∧ (tcChat (AI_setTCTools stIdle []).1 "hi" .beginFail).1.lastError
        = "Platform handler not initialized. Call begin() with a supported platform."
    ∧ "Platform handler not initialized. Call begin() with a supported platform."
        ≠ "Tool calls not set up. Call setTCTools() first." :=
  ⟨rfl, rfl, rfl, by decide⟩

/-! ### Registry validation lemmas (C2) -/

/-- A definition passing every per-definition rule. -/
def toolOk (t : String) : Bool := (checkTool t).isNone

/-- Every definition valid and the combined size within budget. -/
def allToolsValid (tools : List String) : Bool :=
  decide (tcToolsTotalLen tools ≤ MAX_TOTAL_TC_LENGTH) && tools.all toolOk

theorem firstToolErr_eq_none (tools : List String) :
    ∀ i, firstToolErr tools i = none ↔ tools.all toolOk = true := by
  induction tools with
  | nil => simp [firstToolErr]
  | cons t ts ih =>
      intro i
      simp only [firstToolErr, List.all_cons, Bool.and_eq_true]
      cases h : checkTool t with
      | some r => simp [toolOk, h]
      | none => simp [toolOk, h, ih (i + 1)]

theorem TCRule.atPos_position (r : TCRule) (p : Nat) : (r.atPos p).position = some p := by
  cases r <;> rfl

theorem firstToolErr_spec (tools : List String) :
    ∀ i e, firstToolErr tools i = some e →
      ∃ j t r, tools.get? j = some t ∧ checkTool t = some r
        ∧ e = r.atPos (i + j + 1) := by
  induction tools with
  | nil => intro i e h; simp [firstToolErr] at h
  | cons t ts ih =>
      intro i e h
      simp only [firstToolErr] at h
      cases hc : checkTool t with
      | some r =>
          rw [hc] at h
          refine ⟨0, t, r, by simp, hc, ?_⟩
          simpa using h.symm
      | none =>
          rw [hc] at h
          rcases ih (i + 1) e h with ⟨j, t2, r, hg, hcr, he⟩
          refine ⟨j + 1, t2, r, by simpa using hg, hcr, ?_⟩
          rw [he]
          have : i + 1 + j + 1 = i + (j + 1) + 1 := by omega
          rw [this]

/-- C2 (amended): `setTCTools` is all-or-nothing — when every definition
validates the stored set is wholly replaced and the call succeeds;
otherwise the call fails, the previously stored set is untouched, and the
error is the first validation failure: per-definition failures name the
1-based position of a genuinely failing definition, while the combined
size failure reports the total and maximum byte counts with no position. -/
theorem setTCTools_atomic_first_error (st : AIState) (tools : List String) :
    (allToolsValid tools = true →
      AI_setTCTools st tools = ({ st with lastError := "", tcTools := tools }, true))
    ∧ (allToolsValid tools = false →
      ∃ e, setTCToolsE tools = .error e
        ∧ AI_setTCTools st tools = ({ st with lastError := e.message }, false)
        ∧ (AI_setTCTools st tools).1.tcTools = st.tcTools
        ∧ (∀ p, e.position = some p →
            1 ≤ p ∧ p ≤ tools.length
              ∧ ∃ t, tools.get? (p - 1) = some t ∧ toolOk t = false)
        ∧ (e.position = none →
            tcToolsTotalLen tools > MAX_TOTAL_TC_LENGTH)) := by
  constructor
  · intro hv
    simp only [allToolsValid, Bool.and_eq_true, decide_eq_true_eq] at hv
    unfold AI_setTCTools setTCToolsE
    rw [if_neg (by omega)]
    rw [(firstToolErr_eq_none tools 0).mpr hv.2]
  · intro hv
    unfold AI_setTCTools setTCToolsE
    by_cases hlen : tcToolsTotalLen tools > MAX_TOTAL_TC_LENGTH
    · refine ⟨.tooLarge (tcToolsTotalLen tools) MAX_TOTAL_TC_LENGTH, ?_, ?_, ?_, ?_, ?_⟩
      · simp [setTCToolsE, hlen]
      · simp [hlen]
      · simp [hlen]
      · intro p hp; cases hp
      · intro _; exact hlen
    · have hbad : tools.all toolOk = false := by
        cases hall : tools.all toolOk with
        | false => rfl
        | true =>
            exfalso
            unfold allToolsValid at hv
            rw [hall] at hv
            simp only [Bool.and_true, decide_eq_false_iff_not] at hv
            omega
      have hsome : firstToolErr tools 0 ≠ none := by
        intro hnone
        rw [(firstToolErr_eq_none tools 0).mp hnone] at hbad
        cases hbad
      cases hfe : firstToolErr tools 0 with
      | none => exact absurd hfe hsome
      | some e =>
          rcases firstToolErr_spec tools 0 e hfe with ⟨j, t, r, hg, hcr, he⟩
          refine ⟨e, ?_, ?_, ?_, ?_, ?_⟩
          · simp [setTCToolsE, if_neg hlen, hfe]
          · simp [setTCToolsE, if_neg hlen, hfe]
          · simp [setTCToolsE, if_neg hlen, hfe]
          · intro p hp
            rw [he, TCRule.atPos_position] at hp
            have hpj : p = j + 1 := by
              simpa using hp.symm
            subst hpj
            have hjlen : j < tools.length := List.get?_eq_some.mp hg |>.1
            refine ⟨by omega, by omega, t, by simpa using hg, ?_⟩
            simp [toolOk, hcr]
          · intro hnone
            rw [he, TCRule.atPos_position] at hnone
            cases hnone

set_option maxRecDepth 8192 in
/-- Witness for `setTCTools_atomic_first_error`: one valid definition is
adopted wholesale; one definition missing `parameters` is rejected with
its 1-based position and the stored set untouched. -/
theorem setTCTools_atomic_first_error_witness :
    (allToolsValid ["\x7b\"name\":\"f\",\"parameters\":\x7b\"type\":\"object\"\x7d\x7d"] = true
      ∧ AI_setTCTools stReady ["\x7b\"name\":\"f\",\"parameters\":\x7b\"type\":\"object\"\x7d\x7d"]
          = ({ stReady with
                lastError := "",
                tcTools := ["\x7b\"name\":\"f\",\"parameters\":\x7b\"type\":\"object\"\x7d\x7d"] }, true))
    ∧ (allToolsValid ["\x7b\"name\":\"f\"\x7d"] = false
      ∧ ∃ e, setTCToolsE ["\x7b\"name\":\"f\"\x7d"] = .error e
        ∧ AI_setTCTools stReady ["\x7b\"name\":\"f\"\x7d"]
            = ({ stReady with lastError := e.message }, false)
        ∧ (AI_setTCTools stReady ["\x7b\"name\":\"f\"\x7d"]).1.tcTools = stReady.tcTools
        ∧ (∀ p, e.position = some p →
            1 ≤ p ∧ p ≤ (["\x7b\"name\":\"f\"\x7d"] : List String).length
              ∧ ∃ t, (["\x7b\"name\":\"f\"\x7d"] : List String).get? (p - 1) = some t
                ∧ toolOk t = false)
        ∧ (e.position = none →
            tcToolsTotalLen ["\x7b\"name\":\"f\"\x7d"] > MAX_TOTAL_TC_LENGTH)) :=
  ⟨⟨by decide,
    (setTCTools_atomic_first_error stReady
      ["\x7b\"name\":\"f\",\"parameters\":\x7b\"type\":\"object\"\x7d\x7d"]).1 (by decide)⟩,
   ⟨by decide,
    (setTCTools_atomic_first_error stReady ["\x7b\"name\":\"f\"\x7d"]).2 (by decide)⟩⟩

/-- The oversized (but otherwise never examined) definition: 3000 bytes
against a 1024-byte budget. -/
def bigTool : String := ⟨List.replicate 3000 'a'⟩

/-- C2 counterexample: a set failing the combined-size budget is rejected
with an error that reports the sizes but names no 1-based position, so the
failure branch of the claim as stated does not hold. -/
theorem setTCTools_size_error_names_no_position :
    setTCToolsE [bigTool] = .error (.tooLarge 3000 1024)
    ∧ (TCErr.tooLarge 3000 1024).position = none
    ∧ (AI_setTCTools stReady [bigTool]).2 = false := by
  have hlen : tcToolsTotalLen [bigTool] = 3000 := by
    have h0 : bigTool.length = (List.replicate 3000 'a').length := rfl
    have h1 : bigTool.length = 3000 := by rw [h0, List.length_replicate]
    simp [tcToolsTotalLen, h1]
  have h1 : setTCToolsE [bigTool] = .error (.tooLarge 3000 1024) := by
    unfold setTCToolsE
    rw [hlen]
    rfl
  refine ⟨h1, rfl, ?_⟩
  unfold AI_setTCTools
  rw [h1]

/-- A failed HTTP attempt: the connection never opened, or the request
did not come back `200 OK`. -/
def Transport.isFailure : Transport → Bool
  | .beginFail => true
  | .post code _ => decide (code ≠ 200)

/-- A client in the awaiting-tool-results state. -/
def stAwait : AIState := { stReady with lastMessageWasToolCalls := true }

/-- A client holding a pending assistant tool-call turn from an earlier
exchange. -/
def stPending : AIState :=
  { stReady with
    lastMessageWasToolCalls := true,
    lastAssistantToolCallsJson := "[1]",
    lastUserMessage := "old" }

set_option maxHeartbeats 1000000 in
/-- C3 (amended): a `tcReply` that fails in transport leaves the whole
`ConversationState` triple untouched, so the same step can be retried;
`tcChat`, however, resets the conversation tracking before the network
attempt, so after a failed `tcChat` the state carries the new user
message, an empty assistant tool-call array and a cleared awaiting flag
rather than the previous exchange. -/
theorem transport_error_conversation_state (st : AIState) (s : String)
    (tr : Transport) (htr : tr.isFailure = true) :
    ((tcReply st s tr).1.lastUserMessage = st.lastUserMessage
      ∧ (tcReply st s tr).1.lastAssistantToolCallsJson = st.lastAssistantToolCallsJson
      ∧ (tcReply st s tr).1.lastMessageWasToolCalls = st.lastMessageWasToolCalls)
    ∧ (st.handler.isSome = true → st.tcTools ≠ [] →
        ((tcChat st s tr).1.lastUserMessage = s
          ∧ (tcChat st s tr).1.lastAssistantToolCallsJson = ""
          ∧ (tcChat st s tr).1.lastMessageWasToolCalls = false)) := by
  constructor
  · refine ⟨?_, ?_, ?_⟩ <;>
      (cases tr with
       | beginFail =>
           unfold tcReply
           dsimp only
           repeat' split
           all_goals rfl
       | post code payload =>
           simp only [Transport.isFailure, decide_eq_true_eq] at htr
           unfold tcReply
           dsimp only
           repeat' split
           all_goals first | rfl | omega)
  · intro hh ht
    refine ⟨?_, ?_, ?_⟩ <;>
      (cases tr with
       | beginFail =>
           unfold tcChat
           dsimp only
           repeat' split
           all_goals first | rfl | simp_all [List.isEmpty_iff]
       | post code payload =>
           simp only [Transport.isFailure, decide_eq_true_eq] at htr
           unfold tcChat
           dsimp only
           repeat' split
           all_goals first | rfl | omega | simp_all [List.isEmpty_iff])

/-- Witness for `transport_error_conversation_state` at a concrete
awaiting-state client and a 500 response. -/
theorem transport_error_conversation_state_witness :
    ((tcReply stAwait "[]" (.post 500 "oops")).1.lastUserMessage = stAwait.lastUserMessage
      ∧ (tcReply stAwait "[]" (.post 500 "oops")).1.lastAssistantToolCallsJson
          = stAwait.lastAssistantToolCallsJson
      ∧ (tcReply stAwait "[]" (.post 500 "oops")).1.lastMessageWasToolCalls
          = stAwait.lastMessageWasToolCalls)
    ∧ (stAwait.handler.isSome = true → stAwait.tcTools ≠ [] →
        ((tcChat stAwait "[]" (.post 500 "oops")).1.lastUserMessage = "[]"
          ∧ (tcChat stAwait "[]" (.post 500 "oops")).1.lastAssistantToolCallsJson = ""
          ∧ (tcChat stAwait "[]" (.post 500 "oops")).1.lastMessageWasToolCalls = false)) :=
  transport_error_conversation_state stAwait "[]" (.post 500 "oops") (by decide)

/-- C3 counterexample: a client holding a pending assistant tool-call
turn that issues a new `tcChat` failing in transport does not keep the
previous `ConversationState` — the tracking fields were already reset. -/
theorem tcChat_transport_error_resets_counterexample :
    stPending.lastAssistantToolCallsJson = "[1]"
    ∧ stPending.lastUserMessage = "old"
    ∧ stPending.lastMessageWasToolCalls = true
    ∧ (tcChat stPending "new" (.post 500 "oops")).1.lastAssistantToolCallsJson = ""
    ∧ (tcChat stPending "new" (.post 500 "oops")).1.lastMessageWasToolCalls = false
    ∧ (tcChat stPending "new" (.post 500 "oops")).1.lastUserMessage = "new"
    ∧ ("" : String) ≠ "[1]" :=
  ⟨rfl, rfl, rfl, rfl, rfl, rfl, by decide⟩

set_option maxHeartbeats 1000000 in
/-- C9: a successful `tcReply` whose parsed result again signals tool
calls (finish reason `tool_calls` or `tool_use`) overwrites
`lastAssistantToolCallsJson` with the new uniform array, leaves
`lastUserMessage` exactly as it was, and keeps the client awaiting tool
results. -/
theorem tcReply_multi_round (st : AIState) (hdl : Handler)
    (results payload : String) (out : AdapterOut) (rs : List Json)
    (hh : st.handler = some hdl)
    (ht : st.tcTools ≠ [])
    (hf : st.lastMessageWasToolCalls = true)
    (hlen : ¬ results.length > AI_API_REQ_JSON_DOC_SIZE / 2)
    (hp : jsonParse results = some (.arr rs))
    (hfields : resultsFieldError rs = none)
    (hurl : ¬ hdl.endpoint st.modelName st.apiKey st.customEndpoint = "")
    (hbody : ¬ hdl.buildFollowUp st.modelName st.tcTools st.tcSystemRole st.tcToolChoice
        st.lastUserMessage st.lastAssistantToolCallsJson results
        st.tcFollowUpMaxToken st.tcFollowUpToolChoice = "")
    (hout : hdl.parseTC payload = out)
    (hcontent : ¬ out.content = "")
    (hfr : out.finishReason = "tool_calls" ∨ out.finishReason = "tool_use") :
    tcReply st results (.post 200 payload)
      = ({ st with
            lastError := out.errorMsg, tcRawResponse := payload,
            tcReplyResponseCode := 200,
            lastAssistantToolCallsJson := out.content,
            lastMessageWasToolCalls := true }, out.content) := by
  have ht2 : st.tcTools.isEmpty = false := by
    cases hx : st.tcTools with
    | nil => exact absurd hx ht
    | cons a l => rfl
  unfold tcReply
  dsimp only
  rw [hh]
  dsimp only
  simp only [ht2, hf, Bool.not_true, Bool.false_eq_true, if_false]
  rw [if_neg hlen, hp]
  dsimp only [Json.isArr, Json.items]
  simp only [Bool.not_true, Bool.false_eq_true, if_false]
  rw [hfields]
  dsimp only
  rw [if_neg hurl, if_neg hbody]
  rw [if_pos (by decide : (200 : Int) > 0), if_pos trivial, hout]
  rw [if_neg (fun hand => hcontent hand.1), if_pos hfr]

/-- A handler whose follow-up parse reports another round of tool calls. -/
def hRound : Handler :=
  { hStub with parseTC := fun _ =>
      { content := "[2]", errorMsg := "", finishReason := "tool_calls",
        totalTokens := 0 } }

/-- An awaiting client wired to `hRound`. -/
def stRound : AIState := { stPending with handler := some hRound }

/-- Witness for `tcReply_multi_round` on a concrete multi-round reply. -/
theorem tcReply_multi_round_witness :
    tcReply stRound "[]" (.post 200 "resp")
      = ({ stRound with
            lastError := "", tcRawResponse := "resp",
            tcReplyResponseCode := 200,
            lastAssistantToolCallsJson := "[2]",
            lastMessageWasToolCalls := true }, "[2]") :=
  tcReply_multi_round stRound hRound "[]" "resp"
    { content := "[2]", errorMsg := "", finishReason := "tool_calls",
      totalTokens := 0 } []
    rfl (by decide) rfl (by decide) rfl rfl (by decide) (by decide) rfl
    (by decide) (Or.inl rfl)

/-! ### C7: depth of the Gemini type case-conversion -/

/-- spec-modelled, fuel-indexed worker: `type` values upper-cased
recursively through nested members at every depth; the fuel only bounds
the recursion depth. -/
def specUpperGo : Nat → Json → Json
  | 0, v => v
  | fuel+1, j =>
      match j with
      | .obj fs => .obj (fs.map (fun kv =>
          (kv.1, if kv.1 = "type"
                   then (match kv.2 with
                         | .str s => Json.str (strUpper s)
                         | w => specUpperGo fuel w)
                   else specUpperGo fuel kv.2)))
      | .arr xs => .arr (xs.map (specUpperGo fuel))
      | v => v

/-- spec-modelled: the conversion the specification text describes, with
`type` values upper-cased recursively through nested `properties` at
every nesting depth (the serialized length always exceeds the nesting
depth, so the fuel never runs out). Stated only to compare with
`geminiConvParams`. -/
def specUpperTypes (j : Json) : Json := specUpperGo (jsonSerialize j).length j

/-- An `object` schema with a property that is itself an `object` schema
with its own nested property. -/
def nestedParams : Json :=
  .obj [("type", .str "object"),
        ("properties", .obj
          [("loc", .obj
             [("type", .str "object"),
              ("properties", .obj
                [("lat", .obj [("type", .str "number")])])])])]

/-- A tool definition carrying `nestedParams`. -/
def nestedTool : Json :=
  .obj [("name", .str "f"), ("parameters", nestedParams)]

/-- C7 (amended): the Gemini build upper-cases the schema `type` and the
`type` of each direct property, but the conversion is single-level: a
property is reduced to its `type`/`description`/`enum` members, so a
property never carries a `properties` sub-schema of its own. -/
theorem gemini_object_params_single_level (ps : Json)
    (h1 : ps.hasKey "type" = true)
    (h2 : (ps.getD "type").isStrEq "object" = true)
    (h3 : ps.hasKey "properties" = true) :
    (geminiConvParams ps).getKey "type" = some (.str "OBJECT")
    ∧ (geminiConvParams ps).getKey "properties"
        = some (.obj ((ps.getD "properties").fields.map
            (fun kv => (kv.1, geminiConvProp kv.2))))
    ∧ ∀ kv ∈ (ps.getD "properties").fields,
        (geminiConvProp kv.2).hasKey "properties" = false
        ∧ (kv.2.hasKey "type" = true →
            (geminiConvProp kv.2).getKey "type"
              = some (.str (strUpper (kv.2.getD "type").asString))) := by
  have hcond : (ps.hasKey "type" && (ps.getD "type").isStrEq "object") = true := by
    rw [h1, h2]; rfl
  refine ⟨?_, ?_, ?_⟩
  · unfold geminiConvParams
    rw [hcond]
    simp [Json.getKey, Json.fields, Json.lookupField]
  · unfold geminiConvParams
    rw [hcond, h3]
    simp [Json.getKey, Json.fields, Json.lookupField]
  · intro kv _
    constructor
    · unfold geminiConvProp
      by_cases a : kv.2.hasKey "type" <;>
        by_cases b : kv.2.hasKey "description" <;>
          by_cases c : kv.2.hasKey "enum" <;>
            ((try simp only [a, b, c]);
             simp [Json.hasKey, Json.getKey, Json.fields, Json.lookupField])
    · intro hp
      unfold geminiConvProp
      rw [hp]
      simp [Json.getKey, Json.fields, Json.lookupField]

/-- Witness for `gemini_object_params_single_level` at `nestedParams`. -/
theorem gemini_object_params_single_level_witness :
    (geminiConvParams nestedParams).getKey "type" = some (.str "OBJECT")
    ∧ (geminiConvParams nestedParams).getKey "properties"
        = some (.obj ((nestedParams.getD "properties").fields.map
            (fun kv => (kv.1, geminiConvProp kv.2)))) :=
  ⟨(gemini_object_params_single_level nestedParams rfl rfl rfl).1,
   (gemini_object_params_single_level nestedParams rfl rfl rfl).2.1⟩

/-- C7 counterexample: on a nested schema the built declaration keeps of
the `loc` property only its upper-cased `type` — the nested sub-schema is
dropped, not recursively case-converted as the recursive (spec-modelled)
conversion would produce. -/
theorem gemini_nested_type_not_recursive :
    ((jsonParse (jsonSerialize nestedTool)).bind geminiFuncDecl).map
        (fun d => ((d.getD "parameters").getD "properties").getD "loc")
      = some (.obj [("type", .str "OBJECT")])
    ∧ ((specUpperTypes nestedParams).getD "properties").getD "loc"
        = .obj [("type", .str "OBJECT"),
                ("properties", .obj [("lat", .obj [("type", .str "NUMBER")])])]
    ∧ (((geminiConvParams nestedParams).getD "properties").getD "loc").hasKey
        "properties" = false
    ∧ (((specUpperTypes nestedParams).getD "properties").getD "loc").hasKey
        "properties" = true := by
  refine ⟨?_, rfl, rfl, rfl⟩
  rw [jsonParse_serialize]
  rfl

/-! ### C8: shape of the DeepSeek follow-up messages -/

/-- The member-wise two-level copy reproduces an object whose keys are
distinct at both levels. -/
theorem copyDeep2_id (fs : List (String × Json))
    (h : noDupKeys fs = true)
    (h2 : ∀ kv ∈ fs, ∀ gs, kv.2 = Json.obj gs → noDupKeys gs = true) :
    Json.copyDeep2 (.obj fs) = .obj fs := by
  unfold Json.copyDeep2
  rw [show (Json.obj fs).fields = fs from rfl]
  have hmem : ∀ kv ∈ fs, (if kv.2.isObj then Json.copyObj kv.2 else kv.2) = kv.2 := by
    intro kv hkv
    cases hv : kv.2 with
    | obj gs =>
        simp only [Json.isObj, if_pos]
        exact copyObj_nodup gs (h2 kv hkv gs hv)
    | null => rfl
    | bool b => rfl
    | num n => rfl
    | str s => rfl
    | arr xs => rfl
  have hfold :
      List.foldl (fun acc kv =>
          Json.writeField acc kv.1 (if kv.2.isObj then Json.copyObj kv.2 else kv.2)) [] fs
        = List.foldl (fun acc kv => Json.writeField acc kv.1 kv.2) [] fs :=
    List.foldl_ext _ _ _ (fun acc kv hkv => by rw [hmem kv hkv])
  rw [hfold, copyFold fs [] h (by simp)]
  simp

/-- The assistant turn the DeepSeek follow-up builder emits for a stored
uniform array that parses to `tcs`. -/
def dsAssistantMsg (tcs : List Json) : Json :=
  .obj [("role", Json.str "assistant"),
        ("tool_calls", Json.arr (tcs.map Json.copyDeep2))]

/-- C8 (amended): the DeepSeek follow-up re-submits the assistant turn
with `role:"assistant"` and the copied `tool_calls` array but no
`content` member at all (it is omitted, not set to `null`), and each tool
result becomes an independent `role:"tool"` message carrying the result's
`tool_call_id` and the function output as `content`. -/
theorem deepseek_followup_messages (modelName : String) (tools : List String)
    (systemMessage toolChoice lastUserMessage aJson rJson : String)
    (fmax : Int) (fchoice : String) (tcs rs : List Json)
    (ha : jsonParse aJson = some (.arr tcs))
    (hr : jsonParse rJson = some (.arr rs)) :
    ((deepseekBuildFollowUpDoc modelName tools systemMessage toolChoice
        lastUserMessage aJson rJson fmax fchoice).getD "messages").items
      = (if systemMessage ≠ "" then
           [Json.obj [("role", Json.str "system"),
                      ("content", Json.str systemMessage)]] else [])
        ++ Json.obj [("role", Json.str "user"), ("content", Json.str lastUserMessage)]
          :: dsAssistantMsg tcs :: rs.map dsToolMsg
    ∧ (dsAssistantMsg tcs).getKey "role" = some (.str "assistant")
    ∧ (dsAssistantMsg tcs).getKey "content" = none
    ∧ (dsAssistantMsg tcs).getKey "tool_calls" = some (.arr (tcs.map Json.copyDeep2))
    ∧ ∀ r ∈ rs,
        (dsToolMsg r).getKey "role" = some (.str "tool")
        ∧ (r.hasKey "tool_call_id" = true →
            (dsToolMsg r).getKey "tool_call_id" = some (r.getD "tool_call_id"))
        ∧ ((r.hasKey "function" && (r.getD "function").isObj
              && (r.getD "function").hasKey "output") = true →
            (dsToolMsg r).getKey "content" = some ((r.getD "function").getD "output")) := by
  refine ⟨?_, rfl, rfl, rfl, ?_⟩
  · unfold deepseekBuildFollowUpDoc
    dsimp only
    rw [ha, hr]
    simp only [Json.getD, Json.getKey, Json.fields]
    rw [lookupField_writeField_ne _ _ _ _ (by decide : "messages" ≠ "tools")]
    rw [getKey_dsAddToolChoice _ _ _ (by decide : "messages" ≠ "tool_choice")]
    by_cases hm : fmax > 0 <;>
      simp [hm, Json.lookupField, Json.items, dsAssistantMsg]
  · intro r _
    refine ⟨?_, ?_, ?_⟩
    · unfold dsToolMsg
      simp [Json.getKey, Json.fields, Json.lookupField]
    · intro h1
      unfold dsToolMsg
      simp only [h1]
      simp [Json.getKey, Json.fields, Json.lookupField]
    · intro h2
      unfold dsToolMsg
      simp only [h2]
      by_cases h1 : r.hasKey "tool_call_id" <;>
        ((try simp only [h1]);
         simp [Json.getKey, Json.fields, Json.lookupField])

/-- Witness for `deepseek_followup_messages` on a concrete follow-up. -/
theorem deepseek_followup_messages_witness :
    ((deepseekBuildFollowUpDoc "m" [] "" "" "u" "[]" "[]" 0 "").getD
        "messages").items
      = Json.obj [("role", Json.str "user"), ("content", Json.str "u")]
          :: dsAssistantMsg [] :: []
    ∧ (dsAssistantMsg []).getKey "content" = none :=
  ⟨by
    have h := (deepseek_followup_messages "m" [] "" "" "u" "[]" "[]" 0 ""
      [] [] rfl rfl).1
    simpa using h,
   (deepseek_followup_messages "m" [] "" "" "u" "[]" "[]" 0 ""
      [] [] rfl rfl).2.2.1⟩

/-- A concrete uniform tool call. -/
def dsTc0 : Json :=
  .obj [("id", .str "call_1"), ("type", .str "function"),
        ("function", .obj [("name", .str "f"), ("arguments", .str "\x7b\x7d")])]

/-- The DeepSeek follow-up document built from `dsTc0`. -/
def dsFollowDoc : Json :=
  deepseekBuildFollowUpDoc "m" [] "" "" "u" (jsonSerialize (.arr [dsTc0])) "[]" 0 ""

/-- C8 counterexample: the assistant turn of a concrete DeepSeek follow-up
carries `role` and the copied `tool_calls` but has no `content` member at
all — in particular `content` is not `null`. -/
theorem deepseek_followup_content_not_null :
    ((dsFollowDoc.getD "messages").items.getD 1 .null).getKey "role"
        = some (.str "assistant")
    ∧ ((dsFollowDoc.getD "messages").items.getD 1 .null).getKey "tool_calls"
        = some (.arr [dsTc0])
    ∧ ((dsFollowDoc.getD "messages").items.getD 1 .null).getKey "content" = none :=
  ⟨rfl, rfl, rfl⟩

/-! ### C1: the `id` field of uniform tool-call elements -/

/-- C1 (amended): a uniform tool-call element built by the Claude adapter
carries the vendor block's `id` and a `function` object with the name and
the serialized-arguments string; the Gemini adapter's elements carry the
same `function` shape but never an `id` field (Gemini function calls have
none to copy). -/
theorem uniform_tool_call_id_field (blocks parts : List Json) :
    (∀ b ∈ blocks.filter claudeIsToolUse,
        (claudeMkToolCall b).getKey "id" = some (b.getD "id")
        ∧ (claudeMkToolCall b).getKey "function"
            = some (.obj [("name", b.getD "name"),
                          ("arguments", .str (claudeArgsStr b))]))
    ∧ claudeExtractToolCalls blocks
        = (blocks.filter claudeIsToolUse).map claudeMkToolCall
    ∧ (∀ fc : Json, (geminiMkToolCall fc).getKey "id" = none)
    ∧ ∀ tc ∈ geminiExtractToolCalls parts, tc.getKey "id" = none := by
  have hg : ∀ fc : Json, (geminiMkToolCall fc).getKey "id" = none := by
    intro fc
    unfold geminiMkToolCall
    by_cases h : fc.hasKey "name" <;>
      simp [h, Json.getKey, Json.fields, Json.lookupField]
  refine ⟨?_, rfl, hg, ?_⟩
  · intro b _
    exact ⟨rfl, rfl⟩
  · intro tc htc
    unfold geminiExtractToolCalls at htc
    rw [List.mem_map] at htc
    obtain ⟨p, _, rfl⟩ := htc
    exact hg _

/-- A concrete Claude `tool_use` block. -/
def claudeBlock0 : Json :=
  .obj [("type", .str "tool_use"), ("id", .str "toolu_1"),
        ("name", .str "f"), ("input", .obj [])]

/-- A concrete Gemini `functionCall` part. -/
def geminiPart0 : Json :=
  .obj [("functionCall", .obj [("name", .str "f"), ("args", .obj [])])]

/-- Witness for `uniform_tool_call_id_field` on concrete blocks. -/
theorem uniform_tool_call_id_field_witness :
    (claudeMkToolCall claudeBlock0).getKey "id" = some (.str "toolu_1")
    ∧ (geminiMkToolCall (geminiPart0.getD "functionCall")).getKey "id" = none :=
  ⟨((uniform_tool_call_id_field [claudeBlock0] [geminiPart0]).1 claudeBlock0
      (List.mem_filter.mpr ⟨List.mem_singleton.mpr rfl, rfl⟩)).1,
   (uniform_tool_call_id_field [claudeBlock0] [geminiPart0]).2.2.1
     (geminiPart0.getD "functionCall")⟩

/-- A Gemini response whose single candidate part is a function call. -/
def geminiTCResponse : Json :=
  .obj [("candidates", .arr
    [.obj [("content", .obj [("parts", .arr [geminiPart0])])]])]

/-- C1 counterexample: the Gemini parse of a concrete response detects a
tool call (finish reason `tool_calls`), yet the single element of the
returned uniform array has no `id` field. -/
theorem gemini_tool_call_without_id :
    (geminiParseToolCallsResponseBody (jsonSerialize geminiTCResponse)).finishReason
        = "tool_calls"
    ∧ jsonParse (geminiParseToolCallsResponseBody
          (jsonSerialize geminiTCResponse)).content
        = some (.arr [geminiMkToolCall (geminiPart0.getD "functionCall")])
    ∧ (geminiMkToolCall (geminiPart0.getD "functionCall")).getKey "id" = none := by
  refine ⟨rfl, ?_, rfl⟩
  rw [show (geminiParseToolCallsResponseBody (jsonSerialize geminiTCResponse)).content
        = jsonSerialize (.arr [geminiMkToolCall (geminiPart0.getD "functionCall")])
      from rfl]
  rw [jsonParse_serialize]

/-! ### C5: the Claude uniform-array round trip -/

/-- The uniform tool-call array (as a parsed value) always yields the
placeholder text block followed by one `tool_use` block per element. -/
theorem claudeAssistantContent_arr (tcs : List Json) :
    claudeAssistantContent (.arr tcs)
      = Json.obj [("type", .str "text"), ("text", .str "I'll help you with that.")]
        :: tcs.map claudeToolUseBlock := rfl

/-- Re-expressing a uniform element built from a `tool_use` block
recovers the block's id, name and parsed input object. -/
theorem claudeToolUseBlock_mkToolCall (b : Json) (i n : String)
    (gs : List (String × Json))
    (hid : b.getD "id" = .str i) (hname : b.getD "name" = .str n)
    (hin : b.hasKey "input" = true) (hobj : b.getD "input" = .obj gs)
    (hnd : noDupKeys gs = true) :
    claudeToolUseBlock (claudeMkToolCall b)
      = .obj [("type", .str "tool_use"), ("id", .str i), ("name", .str n),
              ("input", .obj gs)] := by
  have hargs : claudeArgsStr b = jsonSerialize (.obj gs) := by
    unfold claudeArgsStr
    rw [hobj, hin]
    simp [Json.isObj]
  have h1 : (claudeMkToolCall b).getD "id" = b.getD "id" := rfl
  have h2 : ((claudeMkToolCall b).getD "function").getD "name" = b.getD "name" := rfl
  have h3 : ((claudeMkToolCall b).getD "function").getD "arguments"
      = .str (claudeArgsStr b) := rfl
  unfold claudeToolUseBlock
  rw [h1, h2, h3, hid, hname, hargs]
  simp only [Json.asString]
  rw [jsonParse_serialize]
  dsimp only
  rw [copyObj_nodup gs hnd]

/-- C5: a uniform array produced by the Claude parse, fed back into the
Claude follow-up builder, reconstructs an assistant turn whose content
array is the mandatory leading text block followed by one `tool_use`
block per uniform call; each such block recovers the original id, name
and parsed arguments object. -/
theorem claude_followup_round_trip (doc : Json) (blocks : List Json)
    (modelName : String) (tools : List String) (toolObjs : List Json)
    (systemMessage toolChoice lastUserMessage rJson : String) (rd : Json)
    (fmax : Int) (fchoice : String)
    (herr : doc.hasKey "error" = false)
    (hc : doc.hasKey "content" = true)
    (harr : doc.getD "content" = .arr blocks)
    (hany : blocks.any claudeIsToolUse = true)
    (htools : claudeConvTools tools = some toolObjs)
    (hrd : jsonParse rJson = some rd) :
    (claudeParseTCDoc doc).content
        = jsonSerialize (.arr (claudeExtractToolCalls blocks))
    ∧ (∃ d, claudeBuildFollowUpDoc modelName tools systemMessage toolChoice
          lastUserMessage (claudeParseTCDoc doc).content rJson fmax fchoice
            = some d
        ∧ (((d.getD "messages").items.getD 1 .null).getD "content").items
            = Json.obj [("type", .str "text"),
                        ("text", .str "I'll help you with that.")]
              :: (claudeExtractToolCalls blocks).map claudeToolUseBlock)
    ∧ ∀ b ∈ blocks.filter claudeIsToolUse, ∀ i n gs,
        b.getD "id" = .str i → b.getD "name" = .str n →
        b.hasKey "input" = true → b.getD "input" = .obj gs →
        noDupKeys gs = true →
        claudeToolUseBlock (claudeMkToolCall b)
          = .obj [("type", .str "tool_use"), ("id", .str i),
                  ("name", .str n), ("input", .obj gs)] := by
  have hcontent : (claudeParseTCDoc doc).content
      = jsonSerialize (.arr (claudeExtractToolCalls blocks)) := by
    unfold claudeParseTCDoc
    rw [herr, hc, harr]
    simp only [Json.isArr, Bool.and_true, Bool.not_true, Bool.false_eq_true,
      if_false, Json.items]
    rw [hany]
    simp
  refine ⟨hcontent, ?_, ?_⟩
  · rw [hcontent]
    unfold claudeBuildFollowUpDoc
    rw [htools, jsonParse_serialize, hrd]
    refine ⟨_, rfl, ?_⟩
    simp only [Json.getD, Json.getKey, Json.fields]
    rw [getKey_claudeAddToolChoice _ _ _ (by decide : "messages" ≠ "tool_choice")]
    by_cases hs : systemMessage ≠ "" <;>
      simp [hs, Json.lookupField, Json.items, claudeAssistantContent_arr]
  · intro b _ i n gs hid hname hin hobj hnd
    exact claudeToolUseBlock_mkToolCall b i n gs hid hname hin hobj hnd

/-- A concrete Claude tool-use response. -/
def claudeResp0 : Json := .obj [("content", .arr [claudeBlock0])]

/-- Witness for `claude_followup_round_trip` on a concrete response. -/
theorem claude_followup_round_trip_witness :
    (claudeParseTCDoc claudeResp0).content
        = jsonSerialize (.arr (claudeExtractToolCalls [claudeBlock0]))
    ∧ ∃ d, claudeBuildFollowUpDoc "m" [] "" "" "u"
          (claudeParseTCDoc claudeResp0).content "[]" 0 "" = some d
        ∧ (((d.getD "messages").items.getD 1 .null).getD "content").items
            = Json.obj [("type", .str "text"),
                        ("text", .str "I'll help you with that.")]
              :: (claudeExtractToolCalls [claudeBlock0]).map claudeToolUseBlock :=
  ⟨(claude_followup_round_trip claudeResp0 [claudeBlock0] "m" [] [] "" "" "u" "[]"
      (.arr []) 0 "" rfl rfl rfl rfl rfl rfl).1,
   (claude_followup_round_trip claudeResp0 [claudeBlock0] "m" [] [] "" "" "u" "[]"
      (.arr []) 0 "" rfl rfl rfl rfl rfl rfl).2.1⟩
